import Mathlib

/-!
Verification of the NL Model Manager client (ComfyUI-NL_Nodes).

This file gives a shallow embedding of the model-localizer front-end code
(`js/model_localizer.js` and the newer panel UI) together with spec-modelled
definitions for the backend copy engine where the repository ships only the
client.  Theorems below settle the frozen specification claims against these
definitions.
-/

namespace NLNodes

/-! ## JavaScript string primitives

Models of the JS builtins used by the client: `String.prototype.trim`,
decimal printing (`Number.prototype.toFixed`) and decimal parsing
(`Number(string)` on the plain-decimal forms produced by the UI). -/

/-- Model of the whitespace class removed by `String.prototype.trim`
(ASCII whitespace plus the Unicode space separators that matter here;
the claims only ever apply it to ASCII data). -/
def jsWhitespace (c : Char) : Bool :=
  c = ' ' || c = '\t' || c = '\n' || c = '\r' ||
  c = Char.ofNat 11 || c = Char.ofNat 12 || c = Char.ofNat 160

/-- Model of `String.prototype.trim`: drop leading and trailing whitespace. -/
def jsTrim (s : String) : String :=
  ⟨((s.data.dropWhile jsWhitespace).reverse.dropWhile jsWhitespace).reverse⟩

/-- The character for a decimal digit `d < 10`. -/
def digitChar (d : Nat) : Char := Char.ofNat (48 + d)

/-- Numeric value of a decimal digit character. -/
def charDigit (c : Char) : Nat := c.toNat - 48

/-- Decimal rendering of a natural number (most significant digit first),
as produced by JS number-to-string conversion for integers. -/
def natToString (n : Nat) : String :=
  if n = 0 then "0" else ⟨((Nat.digits 10 n).map digitChar).reverse⟩

/-- Is this a decimal digit character? -/
def isDigitChar (c : Char) : Bool := 48 ≤ c.toNat && c.toNat ≤ 57

/-- Parse a nonempty all-digit character list (most significant first). -/
def parseDigits (cs : List Char) : Option Nat :=
  if cs ≠ [] && cs.all isDigitChar then
    some (Nat.ofDigits 10 ((cs.map charDigit).reverse))
  else none

/-- Value of the split decimal form: `intPart` before the first `.`, `rest`
from the first `.` on (empty when there is no dot). -/
def parseRest (intPart : List Char) : List Char → Option ℚ
  | [] => (parseDigits intPart).map (fun n => (n : ℚ))
  | c :: fracPart =>
      if c = '.' then
        if intPart = [] && fracPart = [] then none
        else if fracPart.all isDigitChar && intPart.all isDigitChar then
          some ((Nat.ofDigits 10 ((intPart.map charDigit).reverse) : ℚ) +
            (Nat.ofDigits 10 ((fracPart.map charDigit).reverse) : ℚ) /
              (10 : ℚ) ^ fracPart.length)
        else none
      else none

/-- Model of `Number(string)` on the inputs that occur here: after trimming,
the empty string is `0`; otherwise plain decimal forms `digits`,
`digits.digits`, `digits.` and `.digits` parse exactly; anything else is NaN
(`none`).  Signs, exponents and hex forms never reach this code path. -/
def jsStringToNumber (s : String) : Option ℚ :=
  if (jsTrim s).data = [] then some 0
  else
    parseRest ((jsTrim s).data.takeWhile (fun c => c ≠ '.'))
      ((jsTrim s).data.dropWhile (fun c => c ≠ '.'))

/-- `Math.round`: round half toward positive infinity. -/
def jsRound (q : ℚ) : ℤ := ⌊q + 1/2⌋

/-- The decimal digits (most significant first, padded to width `f`) of
`m % 10^f`; used for the fraction part of `toFixed`. -/
def padDigits (f : Nat) (m : Nat) : List Char :=
  ((List.range f).reverse).map (fun i => digitChar ((m / 10 ^ i) % 10))

/-- Model of `Number.prototype.toFixed` for the nonnegative arguments used
here: round the scaled value half-up, then print integer part and `f`
fraction digits. -/
def jsToFixed (f : Nat) (q : ℚ) : String :=
  let n : Nat := (⌊q * (10 : ℚ) ^ f + 1/2⌋).toNat
  if f = 0 then natToString n
  else natToString (n / 10 ^ f) ++ "." ++ ⟨padDigits f (n % 10 ^ f)⟩

/-! ## Settings byte/GB fields (part_003 lines 683–700)

`formatGb` and `bytesFromGb` translate between the stored byte count and the
"Max GB" input field.  JS numbers are modelled as exact rationals: every value
these functions see in the claims (whole multiples of `2^30` below `2^53`,
and their quotients by the power of two `2^30`) is exactly representable in
binary64, so binary64 arithmetic agrees with `ℚ` on this domain. -/

/-- `formatGb` (part_003): empty string for falsy input, else the GiB value
to 0 decimals when at least 10, to 1 decimal below 10. -/
def formatGb (bytes : ℚ) : String :=
  if bytes = 0 then ""
  else
    let gb := bytes / (1024 : ℚ) ^ 3
    if 10 ≤ gb then jsToFixed 0 gb else jsToFixed 1 gb

/-- `bytesFromGb` (part_003): `Number(value)`; non-finite or nonpositive
gives `0`, else `Math.round(num * 1024^3)`. -/
def bytesFromGb (value : String) : Nat :=
  match jsStringToNumber value with
  | none => 0
  | some num => if num ≤ 0 then 0 else (jsRound (num * (1024 : ℚ) ^ 3)).toNat

/-! ### Digit and trim lemmas -/

theorem charDigit_digitChar {d : Nat} (hd : d < 10) :
    charDigit (digitChar d) = d := by
  interval_cases d <;> rfl

theorem isDigitChar_digitChar {d : Nat} (hd : d < 10) :
    isDigitChar (digitChar d) = true := by
  interval_cases d <;> rfl

theorem digitChar_ne_dot {d : Nat} (hd : d < 10) : digitChar d ≠ '.' := by
  interval_cases d <;> decide

theorem jsWhitespace_of_range {c : Char} (h1 : 46 ≤ c.toNat) (h2 : c.toNat ≤ 57) :
    jsWhitespace c = false := by
  have key : ∀ w : Char, c.toNat ≠ w.toNat → c ≠ w := fun w hw hc => hw (by rw [hc])
  have h32 : c ≠ ' ' := key ' ' (by have : (' ').toNat = 32 := rfl; omega)
  have h9 : c ≠ '\t' := key '\t' (by have : ('\t').toNat = 9 := rfl; omega)
  have h10 : c ≠ '\n' := key '\n' (by have : ('\n').toNat = 10 := rfl; omega)
  have h13 : c ≠ '\r' := key '\r' (by have : ('\r').toNat = 13 := rfl; omega)
  have h11 : c ≠ Char.ofNat 11 := key _ (by have : (Char.ofNat 11).toNat = 11 := rfl; omega)
  have h12 : c ≠ Char.ofNat 12 := key _ (by have : (Char.ofNat 12).toNat = 12 := rfl; omega)
  have h160 : c ≠ Char.ofNat 160 :=
    key _ (by have : (Char.ofNat 160).toNat = 160 := rfl; omega)
  simp [jsWhitespace, h32, h9, h10, h13, h11, h12, h160]

theorem dropWhile_eq_self_of_forall {p : Char → Bool} {l : List Char}
    (h : ∀ a ∈ l, p a = false) : l.dropWhile p = l := by
  cases l with
  | nil => rfl
  | cons a t => simp [List.dropWhile, h a (by simp)]

theorem jsTrim_eq_self {s : String}
    (h : ∀ c ∈ s.data, jsWhitespace c = false) : jsTrim s = s := by
  unfold jsTrim
  rw [dropWhile_eq_self_of_forall h,
    dropWhile_eq_self_of_forall (fun a ha => h a (by simpa using ha))]
  cases s
  simp

theorem digitChar_toNat {d : Nat} (hd : d < 10) :
    (digitChar d).toNat = 48 + d := by
  interval_cases d <;> rfl

/-! ### Decimal print/parse round trip -/

theorem natToString_data {n : Nat} (hn : n ≠ 0) :
    (natToString n).data = ((Nat.digits 10 n).map digitChar).reverse := by
  simp [natToString, hn]

theorem mem_natToString_digit {n : Nat} {c : Char}
    (hc : c ∈ (natToString n).data) : 48 ≤ c.toNat ∧ c.toNat ≤ 57 := by
  by_cases hn : n = 0
  · subst hn
    have hz : (natToString 0).data = ['0'] := rfl
    rw [hz] at hc
    simp only [List.mem_singleton] at hc
    subst hc
    decide
  · rw [natToString_data hn] at hc
    rw [List.mem_reverse, List.mem_map] at hc
    obtain ⟨d, hd, rfl⟩ := hc
    have hlt : d < 10 := Nat.digits_lt_base (by norm_num) hd
    rw [digitChar_toNat hlt]
    omega

theorem map_charDigit_digits (n : Nat) :
    ((Nat.digits 10 n).map digitChar).map charDigit = Nat.digits 10 n := by
  rw [List.map_map]
  conv_rhs => rw [← List.map_id (Nat.digits 10 n)]
  apply List.map_congr_left
  intro d hd
  exact charDigit_digitChar (Nat.digits_lt_base (by norm_num) hd)

theorem parseDigits_natToString {n : Nat} (hn : n ≠ 0) :
    parseDigits (natToString n).data = some n := by
  rw [natToString_data hn]
  have hne : ((Nat.digits 10 n).map digitChar).reverse ≠ [] := by
    simp [Nat.digits_ne_nil_iff_ne_zero, hn]
  have hall : (((Nat.digits 10 n).map digitChar).reverse).all isDigitChar = true := by
    rw [List.all_eq_true]
    intro c hc
    rw [List.mem_reverse, List.mem_map] at hc
    obtain ⟨d, hd, rfl⟩ := hc
    exact isDigitChar_digitChar (Nat.digits_lt_base (by norm_num) hd)
  rw [parseDigits, if_pos (by simp [hne, hall])]
  rw [List.map_reverse, List.reverse_reverse, map_charDigit_digits,
    Nat.ofDigits_digits]

theorem takeWhile_append_mid {p : Char → Bool} {l1 : List Char} {a : Char}
    {l2 : List Char} (h : ∀ x ∈ l1, p x = true) (ha : p a = false) :
    (l1 ++ a :: l2).takeWhile p = l1 := by
  induction l1 with
  | nil => simp [List.takeWhile, ha]
  | cons b t ih =>
      simp only [List.cons_append, List.takeWhile, h b (by simp)]
      exact congrArg (fun l => b :: l) (ih (fun x hx => h x (by simp [hx])))

theorem dropWhile_append_mid {p : Char → Bool} {l1 : List Char} {a : Char}
    {l2 : List Char} (h : ∀ x ∈ l1, p x = true) (ha : p a = false) :
    (l1 ++ a :: l2).dropWhile p = a :: l2 := by
  induction l1 with
  | nil => simp [List.dropWhile, ha]
  | cons b t ih =>
      simp only [List.cons_append, List.dropWhile, h b (by simp)]
      exact ih (fun x hx => h x (by simp [hx]))

theorem takeWhile_eq_self_of_forall {p : Char → Bool} {l : List Char}
    (h : ∀ a ∈ l, p a = true) : l.takeWhile p = l := by
  induction l with
  | nil => rfl
  | cons b t ih =>
      simp only [List.takeWhile, h b (by simp)]
      exact congrArg (fun l => b :: l) (ih (fun x hx => h x (by simp [hx])))

theorem dropWhile_eq_nil_of_forall {p : Char → Bool} {l : List Char}
    (h : ∀ a ∈ l, p a = true) : l.dropWhile p = [] := by
  induction l with
  | nil => rfl
  | cons b t ih =>
      simp only [List.dropWhile, h b (by simp)]
      exact ih (fun x hx => h x (by simp [hx]))

theorem natToString_ne_nil (g : Nat) : (natToString g).data ≠ [] := by
  by_cases hg : g = 0
  · subst hg; decide
  · rw [natToString_data hg]
    simp [Nat.digits_ne_nil_iff_ne_zero, hg]

theorem jsTrim_natToString (g : Nat) : jsTrim (natToString g) = natToString g :=
  jsTrim_eq_self (fun c hc => by
    have := mem_natToString_digit hc
    exact jsWhitespace_of_range (by omega) (by omega))

theorem natToString_all_ne_dot {g : Nat} :
    ∀ c ∈ (natToString g).data, decide (c ≠ '.') = true := by
  intro c hc
  have hr := mem_natToString_digit hc
  have : c.toNat ≠ ('.').toNat := by
    have : ('.').toNat = 46 := rfl
    omega
  simp only [decide_eq_true_eq]
  exact fun h => this (by rw [h])

/-- `Number` on the decimal rendering of a positive natural is that natural. -/
theorem jsStringToNumber_natToString {g : Nat} (hg : g ≠ 0) :
    jsStringToNumber (natToString g) = some (g : ℚ) := by
  unfold jsStringToNumber
  rw [jsTrim_natToString]
  rw [if_neg (natToString_ne_nil g)]
  rw [takeWhile_eq_self_of_forall natToString_all_ne_dot,
    dropWhile_eq_nil_of_forall natToString_all_ne_dot]
  rw [parseRest, parseDigits_natToString hg]
  rfl

theorem natToString_all_digit {g : Nat} :
    ((natToString g).data).all isDigitChar = true := by
  rw [List.all_eq_true]
  intro c hc
  have hr := mem_natToString_digit hc
  simp [isDigitChar]
  omega

/-- `Number` on `<digits>.0` is the integer named by the digits. -/
theorem jsStringToNumber_dot_zero {g : Nat} (hg : g ≠ 0) :
    jsStringToNumber (natToString g ++ ".0") = some (g : ℚ) := by
  have hdata : (natToString g ++ ".0").data
      = (natToString g).data ++ '.' :: ['0'] := by
    rw [String.data_append]
  have htrim : jsTrim (natToString g ++ ".0") = natToString g ++ ".0" := by
    apply jsTrim_eq_self
    intro c hc
    rw [hdata] at hc
    simp only [List.mem_append, List.mem_cons, List.not_mem_nil,
      or_false] at hc
    rcases hc with h | h | h
    · have := mem_natToString_digit h
      exact jsWhitespace_of_range (by omega) (by omega)
    · subst h
      exact jsWhitespace_of_range (by decide) (by decide)
    · subst h
      exact jsWhitespace_of_range (by decide) (by decide)
  unfold jsStringToNumber
  rw [htrim, hdata]
  rw [if_neg (by simp)]
  rw [takeWhile_append_mid natToString_all_ne_dot (by decide),
    dropWhile_append_mid natToString_all_ne_dot (by decide)]
  rw [parseRest]
  rw [if_pos rfl]
  rw [if_neg (by simp [natToString_ne_nil g])]
  rw [if_pos (by simp [natToString_all_digit,
    show isDigitChar '0' = true from rfl])]
  have hofd : Nat.ofDigits (10 : ℚ) (((natToString g).data.map charDigit).reverse)
      = (g : ℚ) := by
    rw [show ((10 : ℚ)) = ((10 : ℕ) : ℚ) by norm_num, ← Nat.coe_ofDigits,
      natToString_data hg, List.map_reverse, List.reverse_reverse,
      map_charDigit_digits, Nat.ofDigits_digits]
  have hfrac : Nat.ofDigits (10 : ℚ) ((['0'].map charDigit).reverse) = 0 := by
    rw [show (['0'].map charDigit).reverse = [0] from rfl]
    simp [Nat.ofDigits]
  rw [hofd, hfrac]
  norm_num

/-- `toFixed(0)` on a whole number prints its decimal digits. -/
theorem jsToFixed_zero_nat (g : Nat) : jsToFixed 0 (g : ℚ) = natToString g := by
  unfold jsToFixed
  have hfl : ⌊(g : ℚ) * (10 : ℚ) ^ (0 : Nat) + 1/2⌋ = (g : ℤ) := by
    rw [pow_zero, mul_one]
    rw [show ((g : ℚ)) = ((g : ℤ) : ℚ) by push_cast; ring]
    rw [Int.floor_int_add]
    norm_num
  rw [hfl]
  simp

/-- `toFixed(1)` on a whole number prints its digits followed by `.0`. -/
theorem jsToFixed_one_nat (g : Nat) :
    jsToFixed 1 (g : ℚ) = natToString g ++ ".0" := by
  unfold jsToFixed
  have hfl : ⌊(g : ℚ) * (10 : ℚ) ^ (1 : Nat) + 1/2⌋ = ((10 * g : Nat) : ℤ) := by
    rw [show ((g : ℚ) * (10 : ℚ) ^ (1 : Nat)) = (((10 * g : Nat) : ℤ) : ℚ) by
      push_cast; ring]
    rw [Int.floor_int_add]
    norm_num
  rw [hfl]
  have h1 : ((10 * g : Nat) : ℤ).toNat = 10 * g := by omega
  rw [h1]
  have hdiv : 10 * g / 10 ^ 1 = g := by omega
  have hmod : 10 * g % 10 ^ 1 = 0 := by omega
  rw [if_neg (by norm_num), hdiv, hmod]
  have hpad : (⟨padDigits 1 0⟩ : String) = "0" := by decide
  rw [hpad]
  apply String.ext
  rw [String.data_append, String.data_append, String.data_append,
    List.append_assoc]
  rfl

/-! ## C10 round trip -/

/-- **C10** — The settings round trip between bytes and the displayed GB
field is lossless on whole gibibytes: for every `g < 2^23`,
`bytesFromGb (formatGb (g * 2^30)) = g * 2^30`, including `g = 0`, where
`formatGb` yields the empty string and `bytesFromGb` maps it back to `0`. -/
theorem c10_bytes_gb_roundtrip (g : Nat) (hg : g < 2 ^ 23) :
    bytesFromGb (formatGb ((g * 2 ^ 30 : Nat) : ℚ)) = g * 2 ^ 30 := by
  by_cases hg0 : g = 0
  · subst hg0
    norm_num [formatGb, bytesFromGb, jsStringToNumber, jsTrim]
  · have hbytes : ((g * 2 ^ 30 : Nat) : ℚ) ≠ 0 := by
      push_cast
      positivity
    have hgb : ((g * 2 ^ 30 : Nat) : ℚ) / (1024 : ℚ) ^ 3 = (g : ℚ) := by
      push_cast
      rw [show ((1024 : ℚ)) ^ 3 = 1073741824 by norm_num, mul_div_assoc,
        div_self (by norm_num), mul_one]
    rw [formatGb, if_neg hbytes, hgb]
    have hround : jsRound ((g : ℚ) * (1024 : ℚ) ^ 3) = ((g * 2 ^ 30 : Nat) : ℤ) := by
      unfold jsRound
      rw [show ((g : ℚ) * (1024 : ℚ) ^ 3) = (((g * 2 ^ 30 : Nat) : ℤ) : ℚ) by
        push_cast; ring]
      rw [Int.floor_int_add]
      norm_num
    have hpos : ¬ ((g : ℚ) ≤ 0) := by
      push_neg
      exact_mod_cast Nat.pos_of_ne_zero hg0
    by_cases h10 : (10 : ℚ) ≤ (g : ℚ)
    · rw [if_pos h10, jsToFixed_zero_nat]
      simp only [bytesFromGb, jsStringToNumber_natToString hg0]
      rw [if_neg hpos, hround]
      omega
    · rw [if_neg h10, jsToFixed_one_nat]
      simp only [bytesFromGb, jsStringToNumber_dot_zero hg0]
      rw [if_neg hpos, hround]
      omega

/-- Witness for C10 at `g = 3`. -/
theorem c10_bytes_gb_roundtrip_witness :
    3 < 2 ^ 23 ∧ bytesFromGb (formatGb ((3 * 2 ^ 30 : Nat) : ℚ)) = 3 * 2 ^ 30 :=
  ⟨by norm_num, c10_bytes_gb_roundtrip 3 (by norm_num)⟩

/-! ### Trim idempotence -/

theorem exists_append_dropWhile (p : Char → Bool) (l : List Char) :
    ∃ t, l = t ++ l.dropWhile p := by
  induction l with
  | nil => exact ⟨[], rfl⟩
  | cons a t ih =>
      by_cases h : p a
      · obtain ⟨u, hu⟩ := ih
        exact ⟨a :: u, by simp [List.dropWhile, h, ← hu]⟩
      · exact ⟨[], by simp [List.dropWhile, h]⟩

/-- Right trim at the character-list level. -/
def trimRightList (p : Char → Bool) (l : List Char) : List Char :=
  (l.reverse.dropWhile p).reverse

theorem headq_append_left {l1 l2 : List Char} (h : l1 ≠ []) :
    (l1 ++ l2).head? = l1.head? := by
  cases l1 with
  | nil => exact absurd rfl h
  | cons a t => rfl

theorem headq_dropWhile_not (p : Char → Bool) (l : List Char) :
    ∀ a, (l.dropWhile p).head? = some a → p a = false := by
  induction l with
  | nil => intro a h; simp at h
  | cons b t ih =>
      intro a h
      by_cases hb : p b
      · rw [List.dropWhile_cons_of_pos hb] at h
        exact ih a h
      · rw [List.dropWhile_cons_of_neg hb] at h
        simp only [List.head?_cons, Option.some.injEq] at h
        subst h
        exact Bool.eq_false_iff.mpr hb

theorem dropWhile_eq_self_of_headq {p : Char → Bool} {l : List Char}
    (h : ∀ a, l.head? = some a → p a = false) : l.dropWhile p = l := by
  cases l with
  | nil => rfl
  | cons a t => rw [List.dropWhile_cons_of_neg (by simp [h a rfl])]

theorem trimRightList_headq {p : Char → Bool} {l : List Char} {a : Char}
    (hhead : l.head? = some a) :
    trimRightList p l = [] ∨ (trimRightList p l).head? = some a := by
  obtain ⟨t, ht⟩ := exists_append_dropWhile p l.reverse
  have hrl : l = (l.reverse.dropWhile p).reverse ++ t.reverse := by
    have := congrArg List.reverse ht
    rwa [List.reverse_reverse, List.reverse_append] at this
  by_cases hnil : trimRightList p l = []
  · exact Or.inl hnil
  · refine Or.inr ?_
    have hq : ((l.reverse.dropWhile p).reverse ++ t.reverse).head?
        = ((l.reverse.dropWhile p).reverse).head? := headq_append_left hnil
    rw [← hrl] at hq
    rw [show trimRightList p l = (l.reverse.dropWhile p).reverse from rfl,
      ← hq, hhead]

theorem dropWhile_trimRightList {p : Char → Bool} {l : List Char}
    (h : ∀ a, l.head? = some a → p a = false) :
    (trimRightList p l).dropWhile p = trimRightList p l := by
  apply dropWhile_eq_self_of_headq
  intro a ha
  cases hl : l.head? with
  | none =>
      rw [List.head?_eq_none_iff] at hl
      subst hl
      simp [trimRightList] at ha
  | some b =>
      rcases trimRightList_headq (p := p) hl with h0 | h1
      · rw [h0] at ha
        simp at ha
      · rw [h1, Option.some.injEq] at ha
        subst ha
        exact h b hl

theorem trimRightList_idem (p : Char → Bool) (l : List Char) :
    trimRightList p (trimRightList p l) = trimRightList p l := by
  unfold trimRightList
  rw [List.reverse_reverse]
  by_cases hnil : l.reverse.dropWhile p = []
  · rw [hnil]; rfl
  · rw [dropWhile_eq_self_of_headq (headq_dropWhile_not p l.reverse)]

/-- `trim` is idempotent. -/
theorem jsTrim_idem (s : String) : jsTrim (jsTrim s) = jsTrim s := by
  apply String.ext
  have hd : (jsTrim s).data
      = trimRightList jsWhitespace (s.data.dropWhile jsWhitespace) := rfl
  show trimRightList jsWhitespace ((jsTrim s).data.dropWhile jsWhitespace)
      = (jsTrim s).data
  rw [hd, dropWhile_trimRightList (headq_dropWhile_not jsWhitespace s.data),
    trimRightList_idem]

/-! ## Graph value model

JS runtime values as seen by `collectCandidates`: strings, arrays, plain
objects (of which only the `value`/`name`/`content`/`path` properties are
inspected), and everything else. -/

inductive JsVal where
  | vstr (s : String)
  | varr (items : List JsVal)
  | vobj (pvalue pname pcontent ppath : Option JsVal)
  | vother

/-- `typeof v === "string"` projection. -/
def asStr : JsVal → Option String
  | .vstr s => some s
  | _ => none

/-- A live LiteGraph node as inspected by `collectCandidates`:
`widgets` (absent/falsy ⇒ the whole node is skipped via `continue`), each
widget contributing `widget?.value`; `widgets_values` (kept only when it is
an array); `properties` (kept only when it is a non-null object, inspected
via `Object.values`). -/
structure GNode where
  widgets : Option (List (Option JsVal))
  widgets_values : Option (List JsVal)
  properties : Option (List JsVal)

/-- A serialized-workflow node: only `widgets_values` and `properties` are
inspected. -/
structure SNode where
  widgets_values : Option (List JsVal)
  properties : Option (List JsVal)

/-- A subgraph entry of `data.definitions.subgraphs`. -/
structure SubG where
  nodes : Option (List SNode)

/-- The parts of a serialized workflow that `collectFromWorkflowData`
reads: `data.nodes` and `data.definitions.subgraphs`. -/
structure WfData where
  nodes : Option (List SNode)
  defsSubgraphs : Option (List SubG)

/-- Result of `graph.serialize()`: the top-level workflow data plus the
optional nested `data.extra.workflow`. -/
structure SerializedGraph where
  base : WfData
  extraWorkflow : Option WfData

/-- The live graph: `graph._nodes` (falsy ⇒ empty result) and the
serialization result (`none` when `serialize` is missing or throws). -/
structure GraphModel where
  liveNodes : Option (List (Option GNode))
  serialized : Option SerializedGraph

/-- Model of `String.prototype.includes` with a one-character needle. -/
def strContainsChar (s : String) (c : Char) : Bool := c ∈ s.data

/-! ## `collectCandidates`, older UI (`js/model_localizer.js` lines 64–186) -/

namespace ML1

/-- The per-string guard and `Set.add`: trim, keep when nonempty, at most
512 long and newline-free; the set keeps first-insertion order. -/
def considerString (acc : List String) (raw : String) : List String :=
  let trimmed := jsTrim raw
  if trimmed ≠ "" && trimmed.length ≤ 512 && !(strContainsChar trimmed '\n') then
    if trimmed ∈ acc then acc else acc ++ [trimmed]
  else acc

/-- Strings examined for one `widget?.value`. -/
def widgetStrings : Option JsVal → List String
  | some (.vstr s) => [s]
  | some (.varr items) => items.filterMap asStr
  | some (.vobj pv pn pc pp) =>
      match (pv <|> pn <|> pc <|> pp : Option JsVal) with
      | some (.vstr s) => [s]
      | _ => []
  | _ => []

/-- Strings examined in an array-valued `widgets_values`. -/
def wvStrings : Option (List JsVal) → List String
  | none => []
  | some vs => vs.flatMap (fun v =>
      match v with
      | .vstr s => [s]
      | .varr inner => inner.filterMap asStr
      | _ => [])

/-- Strings examined in `Object.values(node.properties)`. -/
def propStrings : Option (List JsVal) → List String
  | none => []
  | some vs => vs.filterMap asStr

/-- Strings examined for one live node (a falsy `widgets` skips the whole
node via `continue`). -/
def liveNodeStrings : Option GNode → List String
  | none => []
  | some nd =>
      match nd.widgets with
      | none => []
      | some ws =>
          ws.flatMap widgetStrings ++ wvStrings nd.widgets_values ++
            propStrings nd.properties

/-- Strings examined for one serialized node (`collectFromNodeList` body). -/
def snodeStrings (n : SNode) : List String :=
  wvStrings n.widgets_values ++ propStrings n.properties

/-- `collectFromNodeList`. -/
def nodeListStrings : Option (List SNode) → List String
  | none => []
  | some ns => ns.flatMap snodeStrings

/-- `collectFromWorkflowData`. -/
def wfDataStrings (d : WfData) : List String :=
  nodeListStrings d.nodes ++
    (match d.defsSubgraphs with
     | none => []
     | some sgs => sgs.flatMap (fun sg => nodeListStrings sg.nodes))

/-- Strings examined from the `graph.serialize()` result. -/
def serializedStrings : Option SerializedGraph → List String
  | none => []
  | some sd =>
      wfDataStrings sd.base ++
        (match sd.extraWorkflow with
         | none => []
         | some w => wfDataStrings w)

/-- All strings `collectCandidates` examines, in traversal order; when the
graph or `_nodes` is falsy the function returns `[]` before looking at
anything. -/
def rawStrings : Option GraphModel → List String
  | none => []
  | some gr =>
      match gr.liveNodes with
      | none => []
      | some ns => ns.flatMap liveNodeStrings ++ serializedStrings gr.serialized

/-- `collectCandidates` of the older UI: fold the uniform guard-and-insert
over the examined strings; `Array.from` returns insertion order. -/
def collectCandidates (g : Option GraphModel) : List String :=
  (rawStrings g).foldl considerString []

end ML1

/-! ## `collectCandidates`, newer panel UI (`part_003` lines 119–241) -/

namespace ML2

/-- The per-string guard and `Set.add` (identical text to the older UI). -/
def considerString (acc : List String) (raw : String) : List String :=
  let trimmed := jsTrim raw
  if trimmed ≠ "" && trimmed.length ≤ 512 && !(strContainsChar trimmed '\n') then
    if trimmed ∈ acc then acc else acc ++ [trimmed]
  else acc

/-- Strings examined for one `widget?.value`. -/
def widgetStrings : Option JsVal → List String
  | some (.vstr s) => [s]
  | some (.varr items) => items.filterMap asStr
  | some (.vobj pv pn pc pp) =>
      match (pv <|> pn <|> pc <|> pp : Option JsVal) with
      | some (.vstr s) => [s]
      | _ => []
  | _ => []

/-- Strings examined in an array-valued `widgets_values`. -/
def wvStrings : Option (List JsVal) → List String
  | none => []
  | some vs => vs.flatMap (fun v =>
      match v with
      | .vstr s => [s]
      | .varr inner => inner.filterMap asStr
      | _ => [])

/-- Strings examined in `Object.values(node.properties)`. -/
def propStrings : Option (List JsVal) → List String
  | none => []
  | some vs => vs.filterMap asStr

/-- Strings examined for one live node (a falsy `widgets` skips the whole
node via `continue`). -/
def liveNodeStrings : Option GNode → List String
  | none => []
  | some nd =>
      match nd.widgets with
      | none => []
      | some ws =>
          ws.flatMap widgetStrings ++ wvStrings nd.widgets_values ++
            propStrings nd.properties

/-- Strings examined for one serialized node (`collectFromNodeList` body). -/
def snodeStrings (n : SNode) : List String :=
  wvStrings n.widgets_values ++ propStrings n.properties

/-- `collectFromNodeList`. -/
def nodeListStrings : Option (List SNode) → List String
  | none => []
  | some ns => ns.flatMap snodeStrings

/-- `collectFromWorkflowData`. -/
def wfDataStrings (d : WfData) : List String :=
  nodeListStrings d.nodes ++
    (match d.defsSubgraphs with
     | none => []
     | some sgs => sgs.flatMap (fun sg => nodeListStrings sg.nodes))

/-- Strings examined from the `graph.serialize()` result. -/
def serializedStrings : Option SerializedGraph → List String
  | none => []
  | some sd =>
      wfDataStrings sd.base ++
        (match sd.extraWorkflow with
         | none => []
         | some w => wfDataStrings w)

/-- All strings `collectCandidates` examines, in traversal order. -/
def rawStrings : Option GraphModel → List String
  | none => []
  | some gr =>
      match gr.liveNodes with
      | none => []
      | some ns => ns.flatMap liveNodeStrings ++ serializedStrings gr.serialized

/-- `collectCandidates` of the newer panel UI. -/
def collectCandidates (g : Option GraphModel) : List String :=
  (rawStrings g).foldl considerString []

end ML2

/-! ### Candidate well-formedness lemmas -/

theorem mem_considerString {acc : List String} {r c : String}
    (h : c ∈ ML2.considerString acc r) :
    c ∈ acc ∨
      (c = jsTrim r ∧ jsTrim c = c ∧ c ≠ "" ∧ c.length ≤ 512 ∧
        strContainsChar c '\n' = false) := by
  simp only [ML2.considerString] at h
  split at h
  · split at h
    · exact Or.inl h
    · next hmem =>
        rcases List.mem_append.mp h with h1 | h1
        · exact Or.inl h1
        · simp only [List.mem_singleton] at h1
          subst h1
          next hguard =>
            simp only [Bool.and_eq_true, decide_eq_true_eq, ne_eq,
              Bool.not_eq_true', decide_not] at hguard
            refine Or.inr ⟨rfl, jsTrim_idem r, ?_, ?_, ?_⟩
            · simpa using hguard.1.1
            · exact hguard.1.2
            · simpa using hguard.2
  · exact Or.inl h

theorem nodup_considerString {acc : List String} {r : String}
    (h : acc.Nodup) : (ML2.considerString acc r).Nodup := by
  simp only [ML2.considerString]
  split
  · split
    · exact h
    · next hmem =>
        rw [List.nodup_append]
        refine ⟨h, List.nodup_singleton _, ?_⟩
        intro a ha hb
        simp only [List.mem_singleton] at hb
        subst hb
        exact hmem ha
  · exact h

theorem foldl_considerString_mem {l : List String} :
    ∀ {acc c}, c ∈ l.foldl ML2.considerString acc →
      c ∈ acc ∨
        ∃ r ∈ l, c = jsTrim r ∧ jsTrim c = c ∧ c ≠ "" ∧ c.length ≤ 512 ∧
          strContainsChar c '\n' = false := by
  induction l with
  | nil => intro acc c h; exact Or.inl h
  | cons r t ih =>
      intro acc c h
      rw [List.foldl_cons] at h
      rcases ih h with h1 | ⟨r2, hr2, hrest⟩
      · rcases mem_considerString h1 with h2 | h2
        · exact Or.inl h2
        · exact Or.inr ⟨r, by simp, h2.1, h2.2.1, h2.2.2.1, h2.2.2.2.1, h2.2.2.2.2⟩
      · exact Or.inr ⟨r2, by simp [hr2], hrest.1, hrest.2.1, hrest.2.2.1,
          hrest.2.2.2.1, hrest.2.2.2.2⟩

theorem foldl_considerString_nodup {l : List String} :
    ∀ {acc : List String}, acc.Nodup → (l.foldl ML2.considerString acc).Nodup := by
  induction l with
  | nil => intro acc h; exact h
  | cons r t ih => intro acc h; exact ih (nodup_considerString h)

/-! ## C7 and C9 -/

/-- **C7** — Every candidate produced by `collectCandidates` is a trimmed,
nonempty string of length at most 512 with no newline, obtained as the trim
of some string examined from the widget values, `widgets_values`, node
properties or the serialized workflow; and the returned list has no
duplicates. -/
theorem c7_candidates_wellformed (g : Option GraphModel) :
    (∀ c ∈ ML2.collectCandidates g,
      jsTrim c = c ∧ c ≠ "" ∧ c.length ≤ 512 ∧
        strContainsChar c '\n' = false ∧
        ∃ r ∈ ML2.rawStrings g, c = jsTrim r) ∧
    (ML2.collectCandidates g).Nodup := by
  constructor
  · intro c hc
    rcases foldl_considerString_mem hc with h | ⟨r, hr, h1, h2, h3, h4, h5⟩
    · simp at h
    · exact ⟨h2, h3, h4, h5, r, hr, h1⟩
  · exact foldl_considerString_nodup List.nodup_nil

/-- **C9** — The candidate-collection functions of the older UI
(`js/model_localizer.js`) and the newer panel UI (`part_003`) are
extensionally equal: on every graph state they return the same list. -/
theorem c9_collectCandidates_agree :
    ∀ g : Option GraphModel, ML1.collectCandidates g = ML2.collectCandidates g :=
  fun _ => rfl

/-! ## Model-localizer client data model -/

/-- The two table modes. -/
inductive Mode where
  | workflow
  | local
deriving DecidableEq, Repr

/-- An `AssetStatus` item as delivered by the scan/list endpoints. -/
structure Item where
  category : String
  relpath : String
  local_exists : Bool
  network_exists : Bool
  network_path : Option String
  status : String
  local_size_bytes : Option ℚ
  network_size_bytes : Option ℚ
  usage_score : ℚ
  last_used : ℚ
deriving DecidableEq, Repr

/-- The prune settings pair. -/
structure Settings where
  auto_delete_enabled : Bool
  max_cache_bytes : Nat
deriving DecidableEq, Repr

/-- The HTTP requests the client can issue, by endpoint. -/
inductive Request where
  | scan (candidates : List String)
  | listLocal
  | localize (items : List (String × String)) (overwrite : Bool)
  | upload (items : List (String × String)) (overwrite : Bool)
  | jobActive
  | jobPoll (jobId : String)
  | jobCancel (jobId : String)
  | settingsGet
  | prune (maxBytes : Nat)
deriving DecidableEq, Repr

/-- Response metadata common to every endpoint: `response.ok`, the parsed
body's `error` field, the `_raw` fallback of `readJsonOrText`, and
`response.statusText`. -/
structure HttpMeta where
  ok : Bool
  errField : Option String
  rawField : Option String
  statusText : String
deriving DecidableEq, Repr

/-- JS `a || b` on strings: the first operand unless it is falsy (empty). -/
def orString (a b : String) : String := if a = "" then b else a

/-- `data?.error || data?._raw || response.statusText`. -/
def httpErrText (m : HttpMeta) : String :=
  orString (m.errField.getD "") (orString (m.rawField.getD "") m.statusText)

/-- `err.message || String(err)`: a thrown `Error` with an empty message
stringifies to `"Error"`, so the displayed text is never empty. -/
def errMessageOr (msg : String) : String := if msg = "" then "Error" else msg

/-- Truthiness of an optional string (absent and `""` are falsy). -/
def optStrTruthy : Option String → Bool
  | none => false
  | some s => s ≠ ""

/-- Body of a `scan` / `list_local` response. -/
structure ScanPayload where
  meta : HttpMeta
  items : Option (List Item)
  cache_size_human : String
  cache_size_bytes : Nat
  settings : Option Settings
deriving Repr

/-- Body of a `localize` / `upload` start response. -/
structure StartPayload where
  meta : HttpMeta
  job_id : Option String
deriving DecidableEq, Repr

/-- Body of a job poll response. -/
structure PollPayload where
  meta : HttpMeta
  state : String
  message : Option String
  percent : Option ℚ
  bytes_done : Option ℚ
  bytes_total : Option ℚ
  current_item : Option (String × String)
deriving DecidableEq, Repr

/-- Body of the active-job (`/model_localizer/job`) response. -/
structure ResumePayload where
  meta : HttpMeta
  job_id : Option String
deriving DecidableEq, Repr

/-- Body of a settings response. -/
structure SettingsPayload where
  meta : HttpMeta
  settings : Settings
deriving DecidableEq, Repr

/-- Body of a prune response. -/
structure PrunePayload where
  meta : HttpMeta
deriving DecidableEq, Repr

/-- The mutable client state of `createModelLocalizerUI` (part_003),
restricted to the fields the claims are about. -/
structure UIState where
  isVisible : Bool
  isBusy : Bool
  errorLabel : String
  progressText : String
  progressValue : ℚ
  cacheLabel : String
  latestData : List Item
  tableRows : List Item
  currentMode : Mode
  currentPage : Nat
  pageSize : Nat
  selectedKeys : List String
  currentSettings : Settings
  autoToggle : Bool
  maxInput : String
  pruneButtonVisible : Bool
  currentJobId : Option String
  pollTimer : Bool
deriving Repr

/-- The client state right after `createModelLocalizerUI` builds the DOM
(before `resumeActiveJob` runs). -/
def initialUIState (initialVisible : Bool) : UIState where
  isVisible := initialVisible
  isBusy := false
  errorLabel := ""
  progressText := ""
  progressValue := 0
  cacheLabel := "Cache: -"
  latestData := []
  tableRows := []
  currentMode := Mode.workflow
  currentPage := 1
  pageSize := 10
  selectedKeys := []
  currentSettings := ⟨false, 0⟩
  autoToggle := false
  maxInput := ""
  pruneButtonVisible := true
  currentJobId := none
  pollTimer := false

/-- `setBusy`: only the state flag is modelled (the rest is DOM styling). -/
def setBusy (st : UIState) (b : Bool) : UIState := { st with isBusy := b }

/-- Signed decimal rendering (JS integer-to-string). -/
def intToString (i : ℤ) : String :=
  if i < 0 then "-" ++ natToString i.natAbs else natToString i.natAbs

/-- `formatBytes` (part_003 lines 95–107): `-` for nullish or non-finite,
else divide by 1024 at most four times and print. -/
def formatBytes : Option ℚ → String
  | none => "-"
  | some q =>
      if q < 1024 then intToString (jsRound q) ++ " B"
      else if q / 1024 < 1024 then jsToFixed 2 (q / 1024) ++ " KiB"
      else if q / 1024 ^ 2 < 1024 then jsToFixed 2 (q / 1024 ^ 2) ++ " MiB"
      else if q / 1024 ^ 3 < 1024 then jsToFixed 2 (q / 1024 ^ 3) ++ " GiB"
      else jsToFixed 2 (q / 1024 ^ 4) ++ " TiB"

/-- `selectionKey`. -/
def selectionKey (it : Item) : String := it.category ++ "::" ++ it.relpath

/-- The `sortItems` comparator: usage score descending, then last-used
descending, then category and relative path ascending. -/
def itemCmp (a b : Item) : Ordering :=
  if a.usage_score ≠ b.usage_score then
    (if b.usage_score < a.usage_score then Ordering.lt else Ordering.gt)
  else if a.last_used ≠ b.last_used then
    (if b.last_used < a.last_used then Ordering.lt else Ordering.gt)
  else (compare a.category b.category).then (compare a.relpath b.relpath)

/-- `sortItems`: identity outside `local` mode, else a stable sort by
`itemCmp`. -/
def sortItems (mode : Mode) (items : List Item) : List Item :=
  if mode ≠ Mode.local then items
  else items.mergeSort (fun a b => itemCmp a b ≠ Ordering.gt)

/-- `Math.ceil` of a natural division. -/
def natCeilDiv (a b : Nat) : Nat := (a + b - 1) / b

/-- `renderRows` state effects: sort, store `latestData`, drop selections
that no longer exist, clamp the page (`updatePagination`) and render the
current page slice. -/
def renderRows (st : UIState) (items : List Item) : UIState :=
  let sorted := sortItems st.currentMode items
  let allKeys := sorted.map selectionKey
  let sel := st.selectedKeys.filter (fun k => k ∈ allKeys)
  let totalPages := max 1 (natCeilDiv sorted.length st.pageSize)
  let page1 := if st.currentPage > totalPages then totalPages else st.currentPage
  let page := if page1 < 1 then 1 else page1
  let pageItems := (sorted.drop ((page - 1) * st.pageSize)).take st.pageSize
  { st with
    latestData := sorted
    selectedKeys := sel
    currentPage := page
    tableRows := pageItems }

/-- `applySettings` (part_003 lines 702–710): store the settings, check the
auto-prune toggle, fill the Max-GB field via `formatGb`, and hide the
Prune-Now button exactly when auto-delete is enabled. -/
def applySettings (st : UIState) (s : Settings) : UIState :=
  { st with
    currentSettings := s
    autoToggle := s.auto_delete_enabled
    maxInput := formatGb (s.max_cache_bytes : ℚ)
    pruneButtonVisible := !s.auto_delete_enabled }

/-! ## Client operations (part_003)

Each `async` handler becomes a function from the pre-state and the network
outcome (`Except` = fetch threw) to the post-state and the list of requests
it issued, ordered as issued. -/

/-- `refresh` (part_003 lines 638–681): the request is determined before
the response is handled (`currentMode` is not modified in between), and
every branch issues exactly that one request. -/
def refresh (g : Option GraphModel) (st : UIState)
    (resp : Except String ScanPayload) : UIState × List Request :=
  if st.isVisible = false then (st, [])
  else
    let st1 := { st with errorLabel := "" }
    let st2 :=
      if st1.isBusy then st1
      else { st1 with
        progressText :=
          if st.currentMode = Mode.workflow then "Scanning workflow..."
          else "Scanning local models..." }
    let cands := ML2.collectCandidates g
    let st3 :=
      if st.currentMode = Mode.workflow ∧ cands = [] then
        { st2 with errorLabel := "No model candidates found in workflow widgets." }
      else st2
    let req :=
      if st.currentMode = Mode.workflow then Request.scan cands
      else Request.listLocal
    let stF :=
      match resp with
      | .error e =>
          let st4 := { st3 with errorLabel := errMessageOr e }
          if st4.isBusy then st4 else { st4 with progressText := "" }
      | .ok p =>
          if p.meta.ok = false then
            let st4 := { st3 with errorLabel := errMessageOr (httpErrText p.meta) }
            if st4.isBusy then st4 else { st4 with progressText := "" }
          else
            let st4 := { st3 with
              cacheLabel := "Cache: " ++ p.cache_size_human ++ " (" ++
                natToString p.cache_size_bytes ++ " bytes)" }
            let st5 :=
              if st4.currentMode = Mode.local then
                let stp := { st4 with currentPage := 1 }
                match p.settings with
                | some s => applySettings stp s
                | none => stp
              else st4
            let st6 := renderRows st5 (p.items.getD [])
            if st6.isBusy then st6 else { st6 with progressText := "" }
    (stF, [req])

/-- `loadSettings` (part_003 lines 712–723). -/
def loadSettings (st : UIState) (resp : Except String SettingsPayload) :
    UIState × List Request :=
  match resp with
  | .error e => ({ st with errorLabel := errMessageOr e }, [Request.settingsGet])
  | .ok p =>
      if p.meta.ok = false then
        ({ st with errorLabel := errMessageOr (httpErrText p.meta) },
          [Request.settingsGet])
      else (applySettings st p.settings, [Request.settingsGet])

/-- `pruneNow` (part_003 lines 746–767): always issues the prune request
with `bytesFromGb(maxInput.value)`; the settings flag is never consulted. -/
def pruneNow (g : Option GraphModel) (st : UIState)
    (resp : Except String PrunePayload) (rresp : Except String ScanPayload) :
    UIState × List Request :=
  let st1 := { st with errorLabel := "" }
  let st2 := setBusy st1 true
  let st3 := { st2 with progressText := "Pruning cache..." }
  let req := Request.prune (bytesFromGb st.maxInput)
  match resp with
  | .error e =>
      let st4 := { st3 with errorLabel := errMessageOr e }
      ({ (setBusy st4 false) with progressText := "" }, [req])
  | .ok p =>
      if p.meta.ok = false then
        let st4 := { st3 with errorLabel := errMessageOr (httpErrText p.meta) }
        ({ (setBusy st4 false) with progressText := "" }, [req])
      else
        let r := refresh g st3 rresp
        ({ (setBusy r.1 false) with progressText := "" }, req :: r.2)

/-- `startLocalize` (part_003 lines 787–812). -/
def startLocalize (st : UIState) (items : List (String × String)) (ow : Bool)
    (resp : Except String StartPayload) : UIState × List Request :=
  if (st.isBusy || optStrTruthy st.currentJobId) = true then
    ({ st with errorLabel := "Localization already running." }, [])
  else
    let st1 := { st with errorLabel := "" }
    let st2 := setBusy st1 true
    let st3 := { st2 with progressText := "Starting copy..." }
    let req := Request.localize items ow
    match resp with
    | .error e =>
        ({ (setBusy st3 false) with
          errorLabel := errMessageOr e
          progressText := "" }, [req])
    | .ok p =>
        if p.meta.ok = false then
          ({ (setBusy st3 false) with
            errorLabel := errMessageOr (httpErrText p.meta)
            progressText := "" }, [req])
        else
          let st4 := { st3 with currentJobId := p.job_id }
          if optStrTruthy p.job_id then
            ({ st4 with pollTimer := false },
              [req, Request.jobPoll (p.job_id.getD "")])
          else (st4, [req])

/-- `startUpload` (part_003 lines 814–839). -/
def startUpload (st : UIState) (items : List (String × String)) (ow : Bool)
    (resp : Except String StartPayload) : UIState × List Request :=
  if (st.isBusy || optStrTruthy st.currentJobId) = true then
    ({ st with errorLabel := "Upload already running." }, [])
  else
    let st1 := { st with errorLabel := "" }
    let st2 := setBusy st1 true
    let st3 := { st2 with progressText := "Starting upload..." }
    let req := Request.upload items ow
    match resp with
    | .error e =>
        ({ (setBusy st3 false) with
          errorLabel := errMessageOr e
          progressText := "" }, [req])
    | .ok p =>
        if p.meta.ok = false then
          ({ (setBusy st3 false) with
            errorLabel := errMessageOr (httpErrText p.meta)
            progressText := "" }, [req])
        else
          let st4 := { st3 with currentJobId := p.job_id }
          if optStrTruthy p.job_id then
            ({ st4 with pollTimer := false },
              [req, Request.jobPoll (p.job_id.getD "")])
          else (st4, [req])

/-- The progress line a poll renders:
`` `${message || state} ${category/relpath}`.trim() `` plus the byte counts
when `bytes_total > 0`. -/
def pollText (p : PollPayload) : String :=
  let base := jsTrim (orString (p.message.getD "") p.state ++ " " ++
    (match p.current_item with
     | some ci => ci.1 ++ "/" ++ ci.2
     | none => ""))
  if 0 < p.bytes_total.getD 0 then
    base ++ " (" ++ formatBytes p.bytes_done ++ " / " ++
      formatBytes p.bytes_total ++ ")"
  else base

/-- Is this reported state terminal for the client
(`["done", "error", "cancelled"].includes(data.state)`)? -/
def terminalState (s : String) : Bool :=
  s == "done" || s == "error" || s == "cancelled"

/-- `pollJob` (part_003 lines 841–879): one poll round, from issuing the
request to either finishing (terminal state / failure) or re-arming the
timer. -/
def pollJob (g : Option GraphModel) (st : UIState)
    (resp : Except String PollPayload) (rresp : Except String ScanPayload) :
    UIState × List Request :=
  if optStrTruthy st.currentJobId = false then (st, [])
  else
    let jid := st.currentJobId.getD ""
    let st1 := { st with pollTimer := false }
    let req := Request.jobPoll jid
    match resp with
    | .error e =>
        ({ (setBusy st1 false) with
          errorLabel := errMessageOr e
          currentJobId := none }, [req])
    | .ok p =>
        if p.meta.ok = false then
          ({ (setBusy st1 false) with
            errorLabel := errMessageOr (httpErrText p.meta)
            currentJobId := none }, [req])
        else
          let st2 := { st1 with
            progressValue := p.percent.getD 0
            progressText := pollText p }
          if terminalState p.state then
            let st3 := { (setBusy st2 false) with currentJobId := none }
            let st4 :=
              if p.state == "error" then
                { st3 with errorLabel := orString (p.message.getD "") "Copy failed" }
              else st3
            let r := refresh g st4 rresp
            (r.1, req :: r.2)
          else ({ st2 with pollTimer := true }, [req])

/-- `resumeActiveJob` (part_003 lines 881–896). -/
def resumeActiveJob (st : UIState) (resp : Except String ResumePayload) :
    UIState × List Request :=
  match resp with
  | .error e => ({ st with errorLabel := errMessageOr e }, [Request.jobActive])
  | .ok p =>
      if p.meta.ok = false then
        ({ st with errorLabel := errMessageOr (httpErrText p.meta) },
          [Request.jobActive])
      else if optStrTruthy p.job_id then
        let st1 := setBusy { st with currentJobId := p.job_id } true
        ({ st1 with pollTimer := false },
          [Request.jobActive, Request.jobPoll (p.job_id.getD "")])
      else (st, [Request.jobActive])

/-- The Cancel button handler (part_003 lines 1118–1125). -/
def cancelClick (st : UIState) (resp : Except String Unit) :
    UIState × List Request :=
  if optStrTruthy st.currentJobId = false then (st, [])
  else
    match resp with
    | .error e =>
        ({ st with errorLabel := errMessageOr e },
          [Request.jobCancel (st.currentJobId.getD "")])
    | .ok _ => (st, [Request.jobCancel (st.currentJobId.getD "")])

/-- The "Localize All" handler (part_003 lines 1041–1053). -/
def localizeAllClick (st : UIState) (resp : Except String StartPayload) :
    UIState × List Request :=
  if st.isBusy then (st, [])
  else
    let eligible := st.latestData.filter (fun it =>
      it.network_exists && (!it.local_exists || it.status == "different_size"))
    if eligible.isEmpty then
      ({ st with errorLabel := "No eligible models to localize" }, [])
    else
      let ow := eligible.any (fun it => it.status == "different_size")
      startLocalize st (eligible.map (fun it => (it.category, it.relpath))) ow resp

/-- The "Upload All" handler (part_003 lines 1055–1070). -/
def uploadAllClick (st : UIState) (resp : Except String StartPayload) :
    UIState × List Request :=
  if st.isBusy then (st, [])
  else
    let eligible := st.latestData.filter (fun it =>
      it.local_exists && optStrTruthy it.network_path &&
        (!it.network_exists || it.status == "different_size"))
    if eligible.isEmpty then
      ({ st with errorLabel := "No eligible models to upload" }, [])
    else
      let ow := eligible.any (fun it => it.status == "different_size")
      startUpload st (eligible.map (fun it => (it.category, it.relpath))) ow resp

/-- `setMode` (part_003 lines 419–431): switch mode, reset page and
selection, and refresh when idle and visible. -/
def setModeStep (g : Option GraphModel) (mode : Mode) (st : UIState)
    (rresp : Except String ScanPayload) : UIState × List Request :=
  let st1 := { st with currentMode := mode, currentPage := 1, selectedKeys := [] }
  if st1.isBusy = false ∧ st1.isVisible = true then refresh g st1 rresp
  else (st1, [])

/-- Client start-up (part_003 lines 1131–1135):
`resumeActiveJob().finally(() => { setMode("workflow"); loadSettings(); })`. -/
def initClient (initialVisible : Bool) (g : Option GraphModel)
    (resumeResp : Except String ResumePayload)
    (rresp : Except String ScanPayload)
    (sresp : Except String SettingsPayload) : UIState × List Request :=
  let r1 := resumeActiveJob (initialUIState initialVisible) resumeResp
  let r2 := setModeStep g Mode.workflow r1.1 rresp
  let r3 := loadSettings r2.1 sresp
  (r3.1, r1.2 ++ r2.2 ++ r3.2)

/-! ## Client operations, older UI (`js/model_localizer.js`)

The older node UI has no visibility guard, no pagination/sorting, no
settings block and no busy/active guard in `startLocalize`. -/

/-- The mutable client state of the older node UI. -/
structure UIStateV1 where
  isBusy : Bool
  errorLabel : String
  progressText : String
  cacheLabel : String
  latestData : List Item
  tableRows : List Item
  currentMode : Mode
  currentJobId : Option String
  pollTimer : Bool
deriving Repr

/-- `renderRows` of the older UI: store and render the items as given. -/
def renderRowsV1 (st : UIStateV1) (items : List Item) : UIStateV1 :=
  { st with latestData := items, tableRows := items }

/-- `refresh` of the older UI (lines 378–408). -/
def refreshV1 (g : Option GraphModel) (st : UIStateV1)
    (resp : Except String ScanPayload) : UIStateV1 × List Request :=
  let st1 := { st with errorLabel := "" }
  let st2 := { st1 with
    progressText :=
      if st1.currentMode = Mode.workflow then "Scanning workflow..."
      else "Scanning local models..." }
  let cands := ML1.collectCandidates g
  let st3 :=
    if st2.currentMode = Mode.workflow ∧ cands = [] then
      { st2 with errorLabel := "No model candidates found in workflow widgets." }
    else st2
  let req :=
    if st3.currentMode = Mode.workflow then Request.scan cands
    else Request.listLocal
  match resp with
  | .error e =>
      ({ st3 with errorLabel := errMessageOr e, progressText := "" }, [req])
  | .ok p =>
      if p.meta.ok = false then
        ({ st3 with
          errorLabel := errMessageOr (httpErrText p.meta)
          progressText := "" }, [req])
      else
        let st4 := { st3 with
          cacheLabel := "Cache: " ++ p.cache_size_human ++ " (" ++
            natToString p.cache_size_bytes ++ " bytes)" }
        let st5 := renderRowsV1 st4 (p.items.getD [])
        ({ st5 with progressText := "" }, [req])

/-- `startLocalize` of the older UI (lines 410–431): note the absence of a
busy/active-job guard. -/
def startLocalizeV1 (st : UIStateV1) (items : List (String × String))
    (ow : Bool) (resp : Except String StartPayload) : UIStateV1 × List Request :=
  let st1 := { st with
    errorLabel := ""
    isBusy := true
    progressText := "Starting copy..." }
  let req := Request.localize items ow
  match resp with
  | .error e =>
      ({ st1 with
        isBusy := false
        errorLabel := errMessageOr e
        progressText := "" }, [req])
  | .ok p =>
      if p.meta.ok = false then
        ({ st1 with
          isBusy := false
          errorLabel := errMessageOr (httpErrText p.meta)
          progressText := "" }, [req])
      else
        let st2 := { st1 with currentJobId := p.job_id }
        if optStrTruthy p.job_id then
          ({ st2 with pollTimer := false },
            [req, Request.jobPoll (p.job_id.getD "")])
        else (st2, [req])

/-- The "Localize All" handler of the older UI (lines 500–511). -/
def localizeAllClickV1 (st : UIStateV1) (resp : Except String StartPayload) :
    UIStateV1 × List Request :=
  let eligible := st.latestData.filter (fun it =>
    it.network_exists && (!it.local_exists || it.status == "different_size"))
  if eligible.isEmpty then
    ({ st with errorLabel := "No eligible models to localize" }, [])
  else
    let ow := eligible.any (fun it => it.status == "different_size")
    startLocalizeV1 st (eligible.map (fun it => (it.category, it.relpath))) ow resp

/-! ## Error-path helper lemmas -/

theorem errMessageOr_ne_empty (m : String) : errMessageOr m ≠ "" := by
  unfold errMessageOr
  split
  · decide
  · assumption

/-- A scan/list request that failed: the fetch threw, or the response was
non-ok. -/
def scanFails : Except String ScanPayload → Prop
  | .error _ => True
  | .ok p => p.meta.ok = false

/-! ## C2 — busy guard on job starts -/

/-- **C2** — While a job is active in the client (busy, or an active job id
is held), `startLocalize` and `startUpload` fail fast: they set the busy
error text, issue no request at all, and change nothing else — in
particular the active job id is untouched. -/
theorem c2_start_busy_fails_fast (st : UIState) (items : List (String × String))
    (ow : Bool) (resp : Except String StartPayload)
    (hactive : (st.isBusy || optStrTruthy st.currentJobId) = true) :
    startLocalize st items ow resp
        = ({ st with errorLabel := "Localization already running." }, []) ∧
    startUpload st items ow resp
        = ({ st with errorLabel := "Upload already running." }, []) := by
  unfold startLocalize startUpload
  rw [if_pos hactive, if_pos hactive]
  exact ⟨rfl, rfl⟩

/-- Witness for C2: a busy client refuses a localize start. -/
theorem c2_start_busy_fails_fast_witness :
    ((setBusy (initialUIState true) true).isBusy ||
        optStrTruthy (setBusy (initialUIState true) true).currentJobId) = true ∧
    startLocalize (setBusy (initialUIState true) true)
        [("checkpoints", "foo.safetensors")] false (.error "boom")
      = ({ (setBusy (initialUIState true) true) with
          errorLabel := "Localization already running." }, []) :=
  ⟨rfl, (c2_start_busy_fails_fast (setBusy (initialUIState true) true)
    [("checkpoints", "foo.safetensors")] false (.error "boom") rfl).1⟩

/-! ## C3 — failed refresh keeps the table -/

/-- **C3** — When a scan or list_local request fails (thrown fetch or
non-ok response), both the newer refresh and the older one surface a
nonempty error string and leave the stored item data and the rendered table
rows exactly as they were. -/
theorem c3_refresh_failure_preserves_data (g : Option GraphModel)
    (st : UIState) (stv : UIStateV1) (resp : Except String ScanPayload)
    (hvis : st.isVisible = true) (hfail : scanFails resp) :
    ((refresh g st resp).1.latestData = st.latestData ∧
      (refresh g st resp).1.tableRows = st.tableRows ∧
      (refresh g st resp).1.errorLabel ≠ "") ∧
    ((refreshV1 g stv resp).1.latestData = stv.latestData ∧
      (refreshV1 g stv resp).1.tableRows = stv.tableRows ∧
      (refreshV1 g stv resp).1.errorLabel ≠ "") := by
  constructor
  · cases resp with
    | error e =>
        refine ⟨?_, ?_, ?_⟩ <;>
          simp [refresh, hvis, errMessageOr_ne_empty, apply_ite UIState.latestData,
            apply_ite UIState.tableRows, apply_ite UIState.errorLabel]
    | ok p =>
        have hnok : p.meta.ok = false := hfail
        refine ⟨?_, ?_, ?_⟩ <;>
          simp [refresh, hvis, hnok, errMessageOr_ne_empty,
            apply_ite UIState.latestData, apply_ite UIState.tableRows,
            apply_ite UIState.errorLabel]
  · cases resp with
    | error e =>
        refine ⟨?_, ?_, ?_⟩ <;>
          simp [refreshV1, errMessageOr_ne_empty, apply_ite UIStateV1.latestData,
            apply_ite UIStateV1.tableRows, apply_ite UIStateV1.errorLabel]
    | ok p =>
        have hnok : p.meta.ok = false := hfail
        refine ⟨?_, ?_, ?_⟩ <;>
          simp [refreshV1, hnok, errMessageOr_ne_empty,
            apply_ite UIStateV1.latestData, apply_ite UIStateV1.tableRows,
            apply_ite UIStateV1.errorLabel]

/-- Witness for C3 at a concrete failed response. -/
theorem c3_refresh_failure_preserves_data_witness :
    (initialUIState true).isVisible = true ∧
    scanFails (.error "network down") ∧
    (refresh none (initialUIState true) (.error "network down")).1.latestData
      = (initialUIState true).latestData :=
  ⟨rfl, trivial,
    (c3_refresh_failure_preserves_data none (initialUIState true)
      ⟨false, "", "", "", [], [], Mode.workflow, none, false⟩
      (.error "network down") rfl trivial).1.1⟩

/-! ## C8 — batch actions -/

/-- The items "Localize All" submits. -/
def localizeEligible (st : UIState) : List Item :=
  st.latestData.filter (fun it =>
    it.network_exists && (!it.local_exists || it.status == "different_size"))

/-- The items "Upload All" submits. -/
def uploadEligible (st : UIState) : List Item :=
  st.latestData.filter (fun it =>
    it.local_exists && optStrTruthy it.network_path &&
      (!it.network_exists || it.status == "different_size"))

theorem startLocalize_first_request (st : UIState)
    (items : List (String × String)) (ow : Bool)
    (resp : Except String StartPayload)
    (hguard : (st.isBusy || optStrTruthy st.currentJobId) = false) :
    (startLocalize st items ow resp).2.head? = some (Request.localize items ow) := by
  unfold startLocalize
  rw [if_neg (by simp [hguard])]
  cases resp with
  | error e => rfl
  | ok p =>
      by_cases hok : p.meta.ok = false
      · simp [hok]
      · simp only [Bool.not_eq_false] at hok
        by_cases ht : optStrTruthy p.job_id <;> simp [hok, ht]

theorem startUpload_first_request (st : UIState)
    (items : List (String × String)) (ow : Bool)
    (resp : Except String StartPayload)
    (hguard : (st.isBusy || optStrTruthy st.currentJobId) = false) :
    (startUpload st items ow resp).2.head? = some (Request.upload items ow) := by
  unfold startUpload
  rw [if_neg (by simp [hguard])]
  cases resp with
  | error e => rfl
  | ok p =>
      by_cases hok : p.meta.ok = false
      · simp [hok]
      · simp only [Bool.not_eq_false] at hok
        by_cases ht : optStrTruthy p.job_id <;> simp [hok, ht]

/-- **C8** — "Localize All" submits exactly the items with
`network_exists && (!local_exists || status === "different_size")`, and
"Upload All" exactly those with
`local_exists && network_path && (!network_exists || status === "different_size")`;
each sends one batch-level overwrite flag that is true iff at least one
submitted item has status `"different_size"` — so a mixed batch requests
overwrite also for items that are merely missing on the destination side. -/
theorem c8_batch_actions (st : UIState) (resp : Except String StartPayload)
    (hidle : st.isBusy = false) (hjob : st.currentJobId = none) :
    (∀ it, it ∈ localizeEligible st ↔
        it ∈ st.latestData ∧ it.network_exists = true ∧
          (it.local_exists = false ∨ it.status = "different_size")) ∧
    (localizeEligible st ≠ [] →
      (localizeAllClick st resp).2.head? =
        some (Request.localize
          ((localizeEligible st).map fun it => (it.category, it.relpath))
          ((localizeEligible st).any fun it => it.status == "different_size"))) ∧
    (((localizeEligible st).any fun it => it.status == "different_size") = true ↔
      ∃ it ∈ localizeEligible st, it.status = "different_size") ∧
    (∀ it, it ∈ uploadEligible st ↔
        it ∈ st.latestData ∧ it.local_exists = true ∧
          optStrTruthy it.network_path = true ∧
          (it.network_exists = false ∨ it.status = "different_size")) ∧
    (uploadEligible st ≠ [] →
      (uploadAllClick st resp).2.head? =
        some (Request.upload
          ((uploadEligible st).map fun it => (it.category, it.relpath))
          ((uploadEligible st).any fun it => it.status == "different_size"))) ∧
    (((uploadEligible st).any fun it => it.status == "different_size") = true ↔
      ∃ it ∈ uploadEligible st, it.status = "different_size") := by
  refine ⟨?_, ?_, ?_, ?_, ?_, ?_⟩
  · intro it
    simp only [localizeEligible, List.mem_filter, Bool.and_eq_true,
      Bool.or_eq_true, Bool.not_eq_true', beq_iff_eq]
  · intro hne
    unfold localizeAllClick
    rw [if_neg (by simp [hidle])]
    rw [if_neg (by simpa [localizeEligible, List.isEmpty_iff] using hne)]
    exact startLocalize_first_request st _ _ resp (by simp [hidle, hjob, optStrTruthy])
  · rw [List.any_eq_true]
    constructor
    · rintro ⟨it, hit, hst⟩
      exact ⟨it, hit, by simpa using hst⟩
    · rintro ⟨it, hit, hst⟩
      exact ⟨it, hit, by simpa using hst⟩
  · intro it
    simp only [uploadEligible, List.mem_filter, Bool.and_eq_true,
      Bool.or_eq_true, Bool.not_eq_true', beq_iff_eq]
    tauto
  · intro hne
    unfold uploadAllClick
    rw [if_neg (by simp [hidle])]
    rw [if_neg (by simpa [uploadEligible, List.isEmpty_iff] using hne)]
    exact startUpload_first_request st _ _ resp (by simp [hidle, hjob, optStrTruthy])
  · rw [List.any_eq_true]
    constructor
    · rintro ⟨it, hit, hst⟩
      exact ⟨it, hit, by simpa using hst⟩
    · rintro ⟨it, hit, hst⟩
      exact ⟨it, hit, by simpa using hst⟩

/-- A sample network-only item. -/
def sampleMissingItem : Item where
  category := "checkpoints"
  relpath := "foo.safetensors"
  local_exists := false
  network_exists := true
  network_path := some "/net/checkpoints/foo.safetensors"
  status := "network_only"
  local_size_bytes := none
  network_size_bytes := some 100
  usage_score := 0
  last_used := 0

/-- A sample item whose sizes differ between the two sides. -/
def sampleDiffItem : Item where
  category := "checkpoints"
  relpath := "bar.safetensors"
  local_exists := true
  network_exists := true
  network_path := some "/net/checkpoints/bar.safetensors"
  status := "different_size"
  local_size_bytes := some 100
  network_size_bytes := some 150
  usage_score := 0
  last_used := 0

/-- An idle client displaying the two sample items. -/
def c8State : UIState :=
  { initialUIState true with latestData := [sampleMissingItem, sampleDiffItem] }

/-- Witness for C8: with one merely-missing and one size-differing item,
"Localize All" submits both under a single `overwrite = true` flag. -/
theorem c8_batch_actions_witness :
    c8State.isBusy = false ∧ c8State.currentJobId = none ∧
    (localizeAllClick c8State (.error "boom")).2.head? =
      some (Request.localize
        ((localizeEligible c8State).map fun it => (it.category, it.relpath))
        ((localizeEligible c8State).any fun it => it.status == "different_size")) :=
  ⟨rfl, rfl,
    (c8_batch_actions c8State (.error "boom") rfl rfl).2.1 (by decide)⟩

/-! ## C6 — reconnect behaviour -/

/-- The resume query reported a surviving job id. -/
def resumeReports (rr : Except String ResumePayload) : Prop :=
  ∃ p, rr = Except.ok p ∧ p.meta.ok = true ∧ optStrTruthy p.job_id = true

theorem refresh_no_jobActive (g : Option GraphModel) (st : UIState)
    (resp : Except String ScanPayload) :
    Request.jobActive ∉ (refresh g st resp).2 := by
  by_cases hvis : st.isVisible = false
  · unfold refresh
    rw [if_pos hvis]
    simp
  · have hsnd : (refresh g st resp).2
        = [if st.currentMode = Mode.workflow then
            Request.scan (ML2.collectCandidates g) else Request.listLocal] := by
      unfold refresh
      rw [if_neg hvis]
    rw [hsnd]
    split <;> simp

theorem loadSettings_requests (st : UIState)
    (resp : Except String SettingsPayload) :
    (loadSettings st resp).2 = [Request.settingsGet] := by
  cases resp with
  | error e => rfl
  | ok p =>
      dsimp only [loadSettings]
      by_cases hok : p.meta.ok = false
      · rw [if_pos hok]
      · rw [if_neg hok]

theorem resumeActiveJob_requests (st : UIState)
    (resp : Except String ResumePayload) :
    (resumeActiveJob st resp).2 = [Request.jobActive] ∨
      ∃ j, (resumeActiveJob st resp).2 = [Request.jobActive, Request.jobPoll j] := by
  unfold resumeActiveJob
  cases resp with
  | error e => exact Or.inl rfl
  | ok p =>
      dsimp only []
      by_cases hok : p.meta.ok = false
      · rw [if_pos hok]
        exact Or.inl rfl
      · simp only [Bool.not_eq_false] at hok
        rw [if_neg (by simp [hok])]
        by_cases ht : optStrTruthy p.job_id = true
        · rw [if_pos ht]
          exact Or.inr ⟨p.job_id.getD "", rfl⟩
        · rw [if_neg ht]
          exact Or.inl rfl

theorem resume_busy_iff (iv : Bool) (rr : Except String ResumePayload) :
    ((resumeActiveJob (initialUIState iv) rr).1.isBusy = true ↔ resumeReports rr) ∧
    (¬ resumeReports rr →
      (resumeActiveJob (initialUIState iv) rr).1.isBusy = false ∧
      (resumeActiveJob (initialUIState iv) rr).1.currentJobId = none) ∧
    ((∃ j, Request.jobPoll j ∈ (resumeActiveJob (initialUIState iv) rr).2) ↔
      resumeReports rr) := by
  unfold resumeActiveJob resumeReports
  cases rr with
  | error e =>
      refine ⟨?_, ?_, ?_⟩ <;> simp [initialUIState]
  | ok p =>
      dsimp only []
      by_cases hok : p.meta.ok = false
      · rw [if_pos hok]
        refine ⟨?_, ?_, ?_⟩ <;> simp [initialUIState, hok]
      · simp only [Bool.not_eq_false] at hok
        rw [if_neg (by simp [hok])]
        by_cases ht : optStrTruthy p.job_id
        · rw [if_pos ht]
          refine ⟨?_, ?_, ?_⟩ <;> simp [setBusy, hok, ht]
        · rw [if_neg ht]
          refine ⟨?_, ?_, ?_⟩ <;> simp [initialUIState, hok, ht]

/-- **C6** — On client creation the active-job endpoint is queried exactly
once, before the normal workflow mode starts; the client becomes busy (and
begins polling) iff that query reported a surviving job id, and otherwise
proceeds idle with no current job. -/
theorem c6_reconnect_behaviour (iv : Bool) (g : Option GraphModel)
    (rr : Except String ResumePayload) (rresp : Except String ScanPayload)
    (sresp : Except String SettingsPayload) :
    (initClient iv g rr rresp sresp).2.count Request.jobActive = 1 ∧
    (initClient iv g rr rresp sresp).2.head? = some Request.jobActive ∧
    ((resumeActiveJob (initialUIState iv) rr).1.isBusy = true ↔ resumeReports rr) ∧
    ((∃ j, Request.jobPoll j ∈ (resumeActiveJob (initialUIState iv) rr).2) ↔
      resumeReports rr) ∧
    (¬ resumeReports rr →
      (resumeActiveJob (initialUIState iv) rr).1.isBusy = false ∧
      (resumeActiveJob (initialUIState iv) rr).1.currentJobId = none) := by
  have hb := resume_busy_iff iv rr
  have hcount1 :
      ((resumeActiveJob (initialUIState iv) rr).2).count Request.jobActive = 1 := by
    rcases resumeActiveJob_requests (initialUIState iv) rr with h | ⟨j, h⟩ <;>
      simp [h, List.count_cons]
  have hhead :
      ((resumeActiveJob (initialUIState iv) rr).2).head? = some Request.jobActive := by
    rcases resumeActiveJob_requests (initialUIState iv) rr with h | ⟨j, h⟩ <;>
      simp [h]
  have hcount2 :
      ((setModeStep g Mode.workflow (resumeActiveJob (initialUIState iv) rr).1
        rresp).2).count Request.jobActive = 0 := by
    rw [List.count_eq_zero]
    intro hmem
    dsimp only [setModeStep] at hmem
    split at hmem
    · exact refresh_no_jobActive g _ rresp hmem
    · simp at hmem
  have hcount3 :
      ((loadSettings (setModeStep g Mode.workflow
          (resumeActiveJob (initialUIState iv) rr).1 rresp).1 sresp).2).count
        Request.jobActive = 0 := by
    rw [loadSettings_requests]
    rfl
  refine ⟨?_, ?_, hb.1, hb.2.2, hb.2.1⟩
  · unfold initClient
    rw [List.count_append, List.count_append, hcount1, hcount2, hcount3]
  · unfold initClient
    rcases resumeActiveJob_requests (initialUIState iv) rr with h | ⟨j, h⟩ <;>
      simp [h]

/-! ## C5 — explicit prune vs auto prune -/

theorem refresh_snd (g : Option GraphModel) (st : UIState)
    (resp : Except String ScanPayload) :
    (refresh g st resp).2
      = if st.isVisible = false then []
        else [if st.currentMode = Mode.workflow then
            Request.scan (ML2.collectCandidates g)
          else Request.listLocal] := by
  by_cases h : st.isVisible = false
  · unfold refresh
    rw [if_pos h, if_pos h]
  · unfold refresh
    rw [if_neg h, if_neg h]

theorem pruneNow_snd (g : Option GraphModel) (st : UIState)
    (resp : Except String PrunePayload) (rresp : Except String ScanPayload) :
    (pruneNow g st resp rresp).2
      = Request.prune (bytesFromGb st.maxInput) ::
        (match resp with
         | .error _ => []
         | .ok p =>
             if p.meta.ok = false then []
             else if st.isVisible = false then []
             else [if st.currentMode = Mode.workflow then
                 Request.scan (ML2.collectCandidates g)
               else Request.listLocal]) := by
  cases resp with
  | error e => rfl
  | ok p =>
      dsimp only [pruneNow]
      by_cases hok : p.meta.ok = false
      · rw [if_pos hok, if_pos hok]
      · rw [if_neg hok, if_neg hok]
        rw [refresh_snd]
        rfl

/-- Change only the auto-delete flag of a client state (the checkbox and
the button visibility mirror it). -/
def withAutoFlag (st : UIState) (b : Bool) : UIState :=
  { st with
    currentSettings := ⟨b, st.currentSettings.max_cache_bytes⟩
    autoToggle := b
    pruneButtonVisible := !b }

/-! Spec-modelled CachePruner (§4.5 of the spec): the repository ships only
the client, so the pruner is modelled from the spec's words. -/

/-- A local cache entry together with its size and usage data. -/
structure CacheEntry where
  key : String
  size : Nat
  score : ℚ
  last_used : Nat
deriving DecidableEq, Repr

/-- One line of the append-only prune log. -/
structure PruneLogEntry where
  key : String
  bytes_freed : Nat
deriving DecidableEq, Repr

/-- Eviction order: ascending usage score, ties broken by oldest
`last_used` first. -/
def entryLe (a b : CacheEntry) : Bool :=
  a.score < b.score || (a.score = b.score && a.last_used ≤ b.last_used)

/-- Accumulate evictions from the most evictable entry until the remaining
bytes fit the budget. -/
def planGo (total maxBytes : Nat) : List CacheEntry → Nat → List CacheEntry
  | [], _ => []
  | e :: rest, freed =>
      if total - freed ≤ maxBytes then []
      else e :: planGo total maxBytes rest (freed + e.size)

/-- Modelled from the spec: `plan_eviction` of CachePruner (§4.5) — sort
ascending by score and mark entries until the budget is satisfied. -/
def planEviction (entries : List CacheEntry) (maxBytes : Nat) : List CacheEntry :=
  planGo ((entries.map (fun e => e.size)).sum) maxBytes
    (entries.mergeSort entryLe) 0

/-- Modelled from the spec: applying a prune plan deletes each selected
entry and appends one log line with the bytes freed. -/
def applyPlan (maxBytes : Nat) (entries : List CacheEntry) :
    List CacheEntry × List PruneLogEntry :=
  let plan := planEviction entries maxBytes
  (entries.filter (fun e => e ∉ plan), plan.map (fun e => ⟨e.key, e.size⟩))

/-- Modelled from the spec: `prune` of CachePruner (§4.5) — "`prune`
applies the plan only if `settings.auto_delete_enabled` is true when
invoked automatically after a job; a manual/explicit prune call always
executes regardless of the flag." -/
def pruneBackend (explicitCall : Bool) (s : Settings) (maxBytes : Nat)
    (entries : List CacheEntry) : List CacheEntry × List PruneLogEntry :=
  if explicitCall || s.auto_delete_enabled then applyPlan maxBytes entries
  else (entries, [])

/-- **C5** — A manual prune always executes: the client's `pruneNow` issues
the prune request first and its request sequence does not depend on the
auto-delete flag, and the (spec-modelled) backend applies the plan on every
explicit call while the automatic post-job call is gated by the flag. -/
theorem c5_explicit_prune_unconditional (g : Option GraphModel) (st : UIState)
    (resp : Except String PrunePayload) (rresp : Except String ScanPayload)
    (b1 b2 : Bool) (s : Settings) (m : Nat) (entries : List CacheEntry) :
    (pruneNow g st resp rresp).2.head?
        = some (Request.prune (bytesFromGb st.maxInput)) ∧
    (pruneNow g (withAutoFlag st b1) resp rresp).2
        = (pruneNow g (withAutoFlag st b2) resp rresp).2 ∧
    pruneBackend true s m entries = applyPlan m entries ∧
    (s.auto_delete_enabled = false → pruneBackend false s m entries = (entries, [])) ∧
    (s.auto_delete_enabled = true → pruneBackend false s m entries = applyPlan m entries) := by
  refine ⟨?_, ?_, ?_, ?_, ?_⟩
  · rw [pruneNow_snd]
    rfl
  · rw [pruneNow_snd, pruneNow_snd]
    rfl
  · unfold pruneBackend
    rw [if_pos (by simp)]
  · intro hflag
    unfold pruneBackend
    rw [if_neg (by simp [hflag])]
  · intro hflag
    unfold pruneBackend
    rw [if_pos (by simp [hflag])]

/-! ## C1 — no partial file under the destination name

Spec-modelled CopyEngine (§4.3): the repository ships only the client, so
the engine is modelled from the spec's algorithm — bytes are streamed into
a sibling `.partial.<job_id>` temp file and the destination name changes
only by the final atomic rename; cancellation, mid-stream errors and a
failed rename delete the temp file and leave the destination as it was. -/

/-- One observable filesystem instant: content under the destination name
and content under the temp name. -/
structure CopyObs where
  dest : Option (List Nat)
  temp : Option (List Nat)
deriving DecidableEq, Repr

/-- How a copy run ends. -/
inductive CopyOutcome where
  | alreadyExists
  | success
  | cancelled (afterChunks : Nat)
  | ioError (afterChunks : Nat)
  | renameFailed
deriving DecidableEq, Repr

/-- Observable states while the first `k` chunks are streamed into the
temp file: the destination never changes during this phase. -/
def writePhase (pre : Option (List Nat)) (chunks : List (List Nat)) (k : Nat) :
    List CopyObs :=
  (List.range k).map (fun i => ⟨pre, some ((chunks.take (i + 1)).flatten)⟩)

/-- Modelled from the spec: every observable instant of a CopyEngine run
(§4.3 steps 1–6).  `pre` is the destination's pre-call content, `chunks`
the source stream. -/
def copyTrace (pre : Option (List Nat)) (chunks : List (List Nat)) :
    CopyOutcome → List CopyObs
  | .alreadyExists => [⟨pre, none⟩]
  | .cancelled k =>
      ⟨pre, none⟩ :: ⟨pre, some []⟩ ::
        writePhase pre chunks (min k chunks.length) ++ [⟨pre, none⟩]
  | .ioError k =>
      ⟨pre, none⟩ :: ⟨pre, some []⟩ ::
        writePhase pre chunks (min k chunks.length) ++ [⟨pre, none⟩]
  | .renameFailed =>
      ⟨pre, none⟩ :: ⟨pre, some []⟩ ::
        writePhase pre chunks chunks.length ++ [⟨pre, none⟩]
  | .success =>
      ⟨pre, none⟩ :: ⟨pre, some []⟩ ::
        writePhase pre chunks chunks.length ++ [⟨some chunks.flatten, none⟩]

theorem mem_writePhase {pre : Option (List Nat)} {chunks : List (List Nat)}
    {k : Nat} {obs : CopyObs} (h : obs ∈ writePhase pre chunks k) :
    obs.dest = pre := by
  unfold writePhase at h
  rw [List.mem_map] at h
  obtain ⟨i, _, rfl⟩ := h
  rfl

/-- **C1** — At every observable instant of any copy run — complete,
cancelled, failed mid-stream, or with a failed rename — the destination
name holds either its pre-call content (nothing, or the old complete file)
or the complete post-call file; never a partial prefix. -/
theorem c1_no_partial_destination (pre : Option (List Nat))
    (chunks : List (List Nat)) (outcome : CopyOutcome) (obs : CopyObs)
    (hobs : obs ∈ copyTrace pre chunks outcome) :
    obs.dest = pre ∨ obs.dest = some chunks.flatten := by
  cases outcome with
  | alreadyExists =>
      simp only [copyTrace, List.mem_singleton] at hobs
      subst hobs
      exact Or.inl rfl
  | cancelled k =>
      simp only [copyTrace, List.mem_cons, List.mem_append,
        List.mem_singleton, List.not_mem_nil, or_false] at hobs
      rcases hobs with (rfl | rfl | h) | rfl
      · exact Or.inl rfl
      · exact Or.inl rfl
      · exact Or.inl (mem_writePhase h)
      · exact Or.inl rfl
  | ioError k =>
      simp only [copyTrace, List.mem_cons, List.mem_append,
        List.mem_singleton, List.not_mem_nil, or_false] at hobs
      rcases hobs with (rfl | rfl | h) | rfl
      · exact Or.inl rfl
      · exact Or.inl rfl
      · exact Or.inl (mem_writePhase h)
      · exact Or.inl rfl
  | renameFailed =>
      simp only [copyTrace, List.mem_cons, List.mem_append,
        List.mem_singleton, List.not_mem_nil, or_false] at hobs
      rcases hobs with (rfl | rfl | h) | rfl
      · exact Or.inl rfl
      · exact Or.inl rfl
      · exact Or.inl (mem_writePhase h)
      · exact Or.inl rfl
  | success =>
      simp only [copyTrace, List.mem_cons, List.mem_append,
        List.mem_singleton, List.not_mem_nil, or_false] at hobs
      rcases hobs with (rfl | rfl | h) | rfl
      · exact Or.inl rfl
      · exact Or.inl rfl
      · exact Or.inl (mem_writePhase h)
      · exact Or.inr rfl

/-- Witness for C1: a two-chunk copy cancelled after the first chunk; the
mid-stream instant has the partial bytes only under the temp name. -/
theorem c1_no_partial_destination_witness :
    (⟨none, some [7]⟩ : CopyObs) ∈ copyTrace none [[7], [8]] (.cancelled 1) ∧
    ((⟨none, some [7]⟩ : CopyObs).dest = none ∨
      (⟨none, some [7]⟩ : CopyObs).dest = some ([[7], [8]] : List (List Nat)).flatten) :=
  ⟨by decide, c1_no_partial_destination none [[7], [8]] (.cancelled 1) _ (by decide)⟩

/-! ## C4 — terminal states are final for the client

The polling lifecycle is modelled as a transition system: client steps are
the embedded part_003 handlers; a ghost backend record tracks which job ids
the backend has issued (`used`) and which the client has seen terminal
(`term`).  Environment assumptions, justified by the spec ("starting new
work always creates a new CopyJob with a fresh id", resume reports only an
active job), appear as hypotheses of the start and resume steps. -/

theorem refresh_currentJobId (g : Option GraphModel) (st : UIState)
    (resp : Except String ScanPayload) :
    (refresh g st resp).1.currentJobId = st.currentJobId := by
  by_cases hvis : st.isVisible = false
  · simp [refresh, hvis]
  · cases resp with
    | error e => simp [refresh, hvis, apply_ite UIState.currentJobId]
    | ok p =>
        by_cases hok : p.meta.ok = false
        · simp [refresh, hvis, hok, apply_ite UIState.currentJobId]
        · cases hset : p.settings with
          | none =>
              simp [refresh, hvis, hok, hset, renderRows,
                apply_ite UIState.currentJobId]
          | some s =>
              simp [refresh, hvis, hok, hset, renderRows, applySettings,
                apply_ite UIState.currentJobId]

theorem pruneNow_currentJobId (g : Option GraphModel) (st : UIState)
    (resp : Except String PrunePayload) (rresp : Except String ScanPayload) :
    (pruneNow g st resp rresp).1.currentJobId = st.currentJobId := by
  cases resp with
  | error e => simp [pruneNow, setBusy]
  | ok p =>
      by_cases hok : p.meta.ok = false
      · simp [pruneNow, setBusy, hok]
      · simp [pruneNow, setBusy, hok, refresh_currentJobId]

theorem cancelClick_currentJobId (st : UIState) (resp : Except String Unit) :
    (cancelClick st resp).1.currentJobId = st.currentJobId := by
  unfold cancelClick
  split
  · rfl
  · cases resp with
    | error e => rfl
    | ok u => rfl

/-- The job ids delivered by a start response. -/
def startRespIds : Except String StartPayload → List String
  | .ok p =>
      match p.job_id with
      | some j => [j]
      | none => []
  | .error _ => []

/-- The job ids delivered by a resume response. -/
def resumeRespIds : Except String ResumePayload → List String
  | .ok p =>
      match p.job_id with
      | some j => [j]
      | none => []
  | .error _ => []

theorem startLocalize_currentJobId (st : UIState)
    (items : List (String × String)) (ow : Bool)
    (resp : Except String StartPayload) (j : String)
    (h : (startLocalize st items ow resp).1.currentJobId = some j) :
    st.currentJobId = some j ∨ j ∈ startRespIds resp := by
  unfold startLocalize at h
  split at h
  · exact Or.inl h
  · cases resp with
    | error e => simp [setBusy] at h; exact Or.inl h
    | ok p =>
        dsimp only [] at h
        by_cases hok : p.meta.ok = false
        · rw [if_pos hok] at h
          simp [setBusy] at h
          exact Or.inl h
        · rw [if_neg hok] at h
          split at h <;>
            (simp [setBusy] at h
             refine Or.inr ?_
             simp [startRespIds, h])

theorem startUpload_currentJobId (st : UIState)
    (items : List (String × String)) (ow : Bool)
    (resp : Except String StartPayload) (j : String)
    (h : (startUpload st items ow resp).1.currentJobId = some j) :
    st.currentJobId = some j ∨ j ∈ startRespIds resp := by
  unfold startUpload at h
  split at h
  · exact Or.inl h
  · cases resp with
    | error e => simp [setBusy] at h; exact Or.inl h
    | ok p =>
        dsimp only [] at h
        by_cases hok : p.meta.ok = false
        · rw [if_pos hok] at h
          simp [setBusy] at h
          exact Or.inl h
        · rw [if_neg hok] at h
          split at h <;>
            (simp [setBusy] at h
             refine Or.inr ?_
             simp [startRespIds, h])

theorem resumeActiveJob_currentJobId (st : UIState)
    (resp : Except String ResumePayload) (j : String)
    (h : (resumeActiveJob st resp).1.currentJobId = some j) :
    st.currentJobId = some j ∨ j ∈ resumeRespIds resp := by
  unfold resumeActiveJob at h
  cases resp with
  | error e => exact Or.inl h
  | ok p =>
      dsimp only [] at h
      by_cases hok : p.meta.ok = false
      · rw [if_pos hok] at h
        exact Or.inl h
      · rw [if_neg hok] at h
        by_cases ht : optStrTruthy p.job_id = true
        · rw [if_pos ht] at h
          simp [setBusy] at h
          refine Or.inr ?_
          simp [resumeRespIds, h]
        · rw [if_neg ht] at h
          exact Or.inl h

theorem pollJob_currentJobId (g : Option GraphModel) (st : UIState)
    (resp : Except String PollPayload) (rresp : Except String ScanPayload) :
    (pollJob g st resp rresp).1.currentJobId = st.currentJobId ∨
      (pollJob g st resp rresp).1.currentJobId = none := by
  unfold pollJob
  split
  · exact Or.inl rfl
  · cases resp with
    | error e => exact Or.inr (by simp [setBusy])
    | ok p =>
        dsimp only []
        by_cases hok : p.meta.ok = false
        · rw [if_pos hok]
          exact Or.inr (by simp [setBusy])
        · rw [if_neg hok]
          by_cases hterm : terminalState p.state = true
          · rw [if_pos hterm]
            refine Or.inr ?_
            split <;> rw [refresh_currentJobId] <;> simp [setBusy]
          · rw [if_neg hterm]
            exact Or.inl rfl

/-- Does this poll round observe a terminal report for the current job? -/
def pollObservedTerminal (ui : UIState) (resp : Except String PollPayload) : Bool :=
  optStrTruthy ui.currentJobId &&
    (match resp with
     | .ok p => p.meta.ok && terminalState p.state
     | .error _ => false)

theorem pollJob_terminal_clears (g : Option GraphModel) (st : UIState)
    (resp : Except String PollPayload) (rresp : Except String ScanPayload)
    (h : pollObservedTerminal st resp = true) :
    (pollJob g st resp rresp).1.currentJobId = none := by
  unfold pollObservedTerminal at h
  rw [Bool.and_eq_true] at h
  obtain ⟨htruthy, hresp⟩ := h
  unfold pollJob
  rw [if_neg (by simp [htruthy])]
  cases resp with
  | error e => simp at hresp
  | ok p =>
      dsimp only []
      rw [Bool.and_eq_true] at hresp
      rw [if_neg (by simp [hresp.1])]
      rw [if_pos hresp.2]
      split <;> rw [refresh_currentJobId] <;> simp [setBusy]

/-- Client state plus ghost backend bookkeeping: `used` — ids the backend
has ever issued; `term` — ids a poll has reported terminal. -/
structure World where
  ui : UIState
  used : List String
  term : List String

/-- The observable client events of the polling lifecycle. -/
inductive Ev where
  | evStartLocalize (items : List (String × String)) (ow : Bool)
      (resp : Except String StartPayload)
  | evStartUpload (items : List (String × String)) (ow : Bool)
      (resp : Except String StartPayload)
  | evPoll (resp : Except String PollPayload) (rresp : Except String ScanPayload)
  | evResume (resp : Except String ResumePayload)
  | evRefresh (resp : Except String ScanPayload)
  | evPrune (resp : Except String PrunePayload) (rresp : Except String ScanPayload)
  | evCancel (resp : Except String Unit)

/-- One step of the client, with the environment assumptions of the spec:
a start response carries a fresh id (§4.4 "a fresh id"), and the
active-job endpoint reports only a non-terminal job. -/
inductive Step (g : Option GraphModel) : World → Ev → World → Prop where
  | startL (w : World) (items : List (String × String)) (ow : Bool)
      (resp : Except String StartPayload)
      (hfresh : ∀ j ∈ startRespIds resp, j ∉ w.used) :
      Step g w (Ev.evStartLocalize items ow resp)
        ⟨(startLocalize w.ui items ow resp).1, w.used ++ startRespIds resp, w.term⟩
  | startU (w : World) (items : List (String × String)) (ow : Bool)
      (resp : Except String StartPayload)
      (hfresh : ∀ j ∈ startRespIds resp, j ∉ w.used) :
      Step g w (Ev.evStartUpload items ow resp)
        ⟨(startUpload w.ui items ow resp).1, w.used ++ startRespIds resp, w.term⟩
  | poll (w : World) (resp : Except String PollPayload)
      (rresp : Except String ScanPayload) :
      Step g w (Ev.evPoll resp rresp)
        ⟨(pollJob g w.ui resp rresp).1, w.used,
          w.term ++ (if pollObservedTerminal w.ui resp then
            [w.ui.currentJobId.getD ""] else [])⟩
  | resume (w : World) (resp : Except String ResumePayload)
      (hactive : ∀ j ∈ resumeRespIds resp, j ∉ w.term) :
      Step g w (Ev.evResume resp)
        ⟨(resumeActiveJob w.ui resp).1, w.used ++ resumeRespIds resp, w.term⟩
  | refreshStep (w : World) (resp : Except String ScanPayload) :
      Step g w (Ev.evRefresh resp) ⟨(refresh g w.ui resp).1, w.used, w.term⟩
  | pruneStep (w : World) (resp : Except String PrunePayload)
      (rresp : Except String ScanPayload) :
      Step g w (Ev.evPrune resp rresp)
        ⟨(pruneNow g w.ui resp rresp).1, w.used, w.term⟩
  | cancelStep (w : World) (resp : Except String Unit) :
      Step g w (Ev.evCancel resp) ⟨(cancelClick w.ui resp).1, w.used, w.term⟩

/-- A run: each entry is an event with the world it leads to. -/
inductive Trace (g : Option GraphModel) : World → List (Ev × World) → Prop where
  | nil (w : World) : Trace g w []
  | cons (w : World) (e : Ev) (w2 : World) (rest : List (Ev × World)) :
      Step g w e w2 → Trace g w2 rest → Trace g w ((e, w2) :: rest)

/-- The world after a run. -/
def endWorld (w : World) : List (Ev × World) → World
  | [] => w
  | (_, w2) :: rest => endWorld w2 rest

/-- Is this event a poll round? -/
def isPollEv : Ev → Prop
  | .evPoll _ _ => True
  | _ => False

/-- Somewhere along the run a poll round is executed while job `j` is the
current job — i.e. the client polls (and renders the state of) job `j`. -/
def PollsJ (j : String) : World → List (Ev × World) → Prop
  | _, [] => False
  | w, (e, w2) :: rest =>
      (isPollEv e ∧ w.ui.currentJobId = some j) ∨ PollsJ j w2 rest

/-- Books are consistent: a held truthy job id was issued by the backend,
and every terminal id was issued. -/
def SysInv (w : World) : Prop :=
  (∀ j, w.ui.currentJobId = some j → j ≠ "" → j ∈ w.used) ∧
  (∀ j ∈ w.term, j ∈ w.used)

/-- After job `j` was seen terminal: it is on the terminal list and is not
the current job. -/
def TermInv (j : String) (w : World) : Prop :=
  j ∈ w.term ∧ w.ui.currentJobId ≠ some j ∧ SysInv w

theorem step_sysinv {g : Option GraphModel} {w : World} {e : Ev} {w2 : World}
    (hw : SysInv w) (hs : Step g w e w2) : SysInv w2 := by
  obtain ⟨hcur, hterm⟩ := hw
  cases hs with
  | startL items ow resp hfresh =>
      refine ⟨?_, ?_⟩
      · intro j hj hne
        rcases startLocalize_currentJobId w.ui items ow resp j hj with h | h
        · exact List.mem_append_left _ (hcur j h hne)
        · exact List.mem_append_right _ h
      · intro j hj
        exact List.mem_append_left _ (hterm j hj)
  | startU items ow resp hfresh =>
      refine ⟨?_, ?_⟩
      · intro j hj hne
        rcases startUpload_currentJobId w.ui items ow resp j hj with h | h
        · exact List.mem_append_left _ (hcur j h hne)
        · exact List.mem_append_right _ h
      · intro j hj
        exact List.mem_append_left _ (hterm j hj)
  | poll resp rresp =>
      refine ⟨?_, ?_⟩
      · intro j hj hne
        rcases pollJob_currentJobId g w.ui resp rresp with h | h
        · rw [hj] at h
          exact hcur j h.symm hne
        · rw [hj] at h
          exact absurd h.symm (by simp)
      · intro j hj
        rcases List.mem_append.mp hj with h | h
        · exact hterm j h
        · by_cases hobs : pollObservedTerminal w.ui resp = true
          · rw [if_pos hobs] at h
            simp only [List.mem_singleton] at h
            subst h
            have htruthy : optStrTruthy w.ui.currentJobId = true := by
              unfold pollObservedTerminal at hobs
              rw [Bool.and_eq_true] at hobs
              exact hobs.1
            cases hid : w.ui.currentJobId with
            | none => rw [hid] at htruthy; simp [optStrTruthy] at htruthy
            | some s =>
                rw [hid] at htruthy
                simp only [optStrTruthy, decide_eq_true_eq] at htruthy
                simp only [Option.getD_some]
                exact hcur s hid htruthy
          · rw [if_neg hobs] at h
            simp at h
  | resume resp hactive =>
      refine ⟨?_, ?_⟩
      · intro j hj hne
        rcases resumeActiveJob_currentJobId w.ui resp j hj with h | h
        · exact List.mem_append_left _ (hcur j h hne)
        · exact List.mem_append_right _ h
      · intro j hj
        exact List.mem_append_left _ (hterm j hj)
  | refreshStep resp =>
      refine ⟨?_, hterm⟩
      intro j hj hne
      rw [refresh_currentJobId] at hj
      exact hcur j hj hne
  | pruneStep resp rresp =>
      refine ⟨?_, hterm⟩
      intro j hj hne
      rw [pruneNow_currentJobId] at hj
      exact hcur j hj hne
  | cancelStep resp =>
      refine ⟨?_, hterm⟩
      intro j hj hne
      rw [cancelClick_currentJobId] at hj
      exact hcur j hj hne

theorem step_terminv {g : Option GraphModel} {w : World} {e : Ev} {w2 : World}
    {j : String} (hj : j ≠ "") (hw : TermInv j w) (hs : Step g w e w2) :
    TermInv j w2 := by
  obtain ⟨hmem, hne, hsys⟩ := hw
  refine ⟨?_, ?_, step_sysinv hsys hs⟩
  · cases hs with
    | startL items ow resp hfresh => exact hmem
    | startU items ow resp hfresh => exact hmem
    | poll resp rresp => exact List.mem_append_left _ hmem
    | resume resp hactive => exact hmem
    | refreshStep resp => exact hmem
    | pruneStep resp rresp => exact hmem
    | cancelStep resp => exact hmem
  · cases hs with
    | startL items ow resp hfresh =>
        intro hcur
        rcases startLocalize_currentJobId w.ui items ow resp j hcur with h | h
        · exact hne h
        · exact hfresh j h (hsys.2 j hmem)
    | startU items ow resp hfresh =>
        intro hcur
        rcases startUpload_currentJobId w.ui items ow resp j hcur with h | h
        · exact hne h
        · exact hfresh j h (hsys.2 j hmem)
    | poll resp rresp =>
        intro hcur
        rcases pollJob_currentJobId g w.ui resp rresp with h | h
        · rw [hcur] at h
          exact hne h.symm
        · rw [hcur] at h
          exact absurd h.symm (by simp)
    | resume resp hactive =>
        intro hcur
        rcases resumeActiveJob_currentJobId w.ui resp j hcur with h | h
        · exact hne h
        · exact hactive j h hmem
    | refreshStep resp =>
        intro hcur
        rw [refresh_currentJobId] at hcur
        exact hne hcur
    | pruneStep resp rresp =>
        intro hcur
        rw [pruneNow_currentJobId] at hcur
        exact hne hcur
    | cancelStep resp =>
        intro hcur
        rw [cancelClick_currentJobId] at hcur
        exact hne hcur

theorem trace_no_polls {g : Option GraphModel} {j : String} (hj : j ≠ "") :
    ∀ {w : World} {entries : List (Ev × World)},
      TermInv j w → Trace g w entries →
      ¬ PollsJ j w entries ∧ ∀ x ∈ entries, x.2.ui.currentJobId ≠ some j := by
  intro w entries hterm htr
  induction htr with
  | nil w => exact ⟨by simp [PollsJ], by simp⟩
  | cons w e w2 rest hs htr2 ih =>
      have hterm2 : TermInv j w2 := step_terminv hj hterm hs
      obtain ⟨ihp, ihc⟩ := ih hterm2
      refine ⟨?_, ?_⟩
      · intro hp
        rcases hp with ⟨_, hcur⟩ | hp2
        · exact hterm.2.1 hcur
        · exact ihp hp2
      · intro x hx
        rcases List.mem_cons.mp hx with rfl | hx2
        · exact hterm2.2.1
        · exact ihc x hx2

theorem trace_sysinv {g : Option GraphModel} :
    ∀ {w : World} {entries : List (Ev × World)},
      SysInv w → Trace g w entries → SysInv (endWorld w entries) := by
  intro w entries hw htr
  induction htr with
  | nil w => exact hw
  | cons w e w2 rest hs htr2 ih => exact ih (step_sysinv hw hs)

theorem trace_append_split {g : Option GraphModel} :
    ∀ (l1 : List (Ev × World)) {w : World} {x : Ev × World}
      {l2 : List (Ev × World)},
      Trace g w (l1 ++ x :: l2) →
      Step g (endWorld w l1) x.1 x.2 ∧ Trace g x.2 l2 ∧ Trace g w l1 := by
  intro l1
  induction l1 with
  | nil =>
      intro w x l2 htr
      cases htr with
      | cons _ e w2 rest hs htr2 => exact ⟨hs, htr2, Trace.nil w⟩
  | cons y t ih =>
      intro w x l2 htr
      cases htr with
      | cons _ e w2 rest hs htr2 =>
          obtain ⟨h1, h2, h3⟩ := ih htr2
          exact ⟨h1, h2, Trace.cons w e w2 t hs h3⟩

/-- The fresh client world. -/
def initWorld (iv : Bool) : World := ⟨initialUIState iv, [], []⟩

theorem initWorld_sysinv (iv : Bool) : SysInv (initWorld iv) := by
  constructor
  · intro j hj hne
    simp [initWorld, initialUIState] at hj
  · intro j hj
    simp [initWorld] at hj

/-- The poll response is ok and reports a terminal state. -/
def pollRespTerminal : Except String PollPayload → Prop
  | .ok p => p.meta.ok = true ∧ terminalState p.state = true
  | .error _ => False

/-- **C4** — In any run of the client from a fresh start, once a poll of
job `j` reports a terminal state (`done`, `error` or `cancelled`), no later
step ever polls `j` again (so its state is never rendered again, in
particular never as running), and no later world holds `j` as the current
job. -/
theorem c4_terminal_is_final (g : Option GraphModel) (iv : Bool) (j : String)
    (pre post : List (Ev × World)) (resp : Except String PollPayload)
    (rresp : Except String ScanPayload) (wmid : World)
    (htr : Trace g (initWorld iv)
      (pre ++ (Ev.evPoll resp rresp, wmid) :: post))
    (hcur : (endWorld (initWorld iv) pre).ui.currentJobId = some j)
    (hj : j ≠ "") (hterm : pollRespTerminal resp) :
    ¬ PollsJ j wmid post ∧ ∀ x ∈ post, x.2.ui.currentJobId ≠ some j := by
  obtain ⟨hstep, hpost, hpre⟩ := trace_append_split pre htr
  have hsyspre : SysInv (endWorld (initWorld iv) pre) :=
    trace_sysinv (initWorld_sysinv iv) hpre
  set wpre := endWorld (initWorld iv) pre with hwpre
  have hobs : pollObservedTerminal wpre.ui resp = true := by
    unfold pollObservedTerminal
    rw [Bool.and_eq_true]
    constructor
    · rw [hcur]
      simpa [optStrTruthy] using hj
    · cases resp with
      | error e => exact absurd hterm (by simp [pollRespTerminal])
      | ok p =>
          obtain ⟨h1, h2⟩ := hterm
          simp [h1, h2]
  cases hstep with
  | poll resp2 rresp2 =>
      have hterm2 : TermInv j ⟨(pollJob g wpre.ui resp rresp).1, wpre.used,
          wpre.term ++ (if pollObservedTerminal wpre.ui resp then
            [wpre.ui.currentJobId.getD ""] else [])⟩ := by
        refine ⟨?_, ?_, ?_⟩
        · rw [if_pos hobs]
          rw [hcur]
          simp
        · rw [pollJob_terminal_clears g wpre.ui resp rresp hobs]
          simp
        · exact step_sysinv hsyspre (Step.poll wpre resp rresp)
      exact trace_no_polls hj hterm2 hpost

/-! Concrete run for the C4 witness: resume an active job, poll it once to
`done`, then refresh. -/

def c4resumeResp : Except String ResumePayload :=
  .ok ⟨⟨true, none, none, "OK"⟩, some "job1"⟩

def c4pollResp : Except String PollPayload :=
  .ok ⟨⟨true, none, none, "OK"⟩, "done", none, none, none, none, none⟩

def c4w1 : World :=
  ⟨(resumeActiveJob (initWorld true).ui c4resumeResp).1,
    (initWorld true).used ++ resumeRespIds c4resumeResp, (initWorld true).term⟩

def c4w2 : World :=
  ⟨(pollJob none c4w1.ui c4pollResp (.error "net")).1, c4w1.used,
    c4w1.term ++ (if pollObservedTerminal c4w1.ui c4pollResp then
      [c4w1.ui.currentJobId.getD ""] else [])⟩

def c4w3 : World :=
  ⟨(refresh none c4w2.ui (.error "net2")).1, c4w2.used, c4w2.term⟩

/-- Witness for C4 on the concrete three-step run. -/
theorem c4_terminal_is_final_witness :
    Trace none (initWorld true)
      ([(Ev.evResume c4resumeResp, c4w1)] ++
        (Ev.evPoll c4pollResp (.error "net"), c4w2) ::
          [(Ev.evRefresh (.error "net2"), c4w3)]) ∧
    (endWorld (initWorld true) [(Ev.evResume c4resumeResp, c4w1)]).ui.currentJobId
      = some "job1" ∧
    ¬ PollsJ "job1" c4w2 [(Ev.evRefresh (.error "net2"), c4w3)] := by
  have htr : Trace none (initWorld true)
      ([(Ev.evResume c4resumeResp, c4w1)] ++
        (Ev.evPoll c4pollResp (.error "net"), c4w2) ::
          [(Ev.evRefresh (.error "net2"), c4w3)]) := by
    refine Trace.cons _ _ _ _ (Step.resume _ _ ?_) ?_
    · intro x hx
      simp [c4resumeResp, resumeRespIds] at hx
      subst hx
      simp [initWorld]
    · refine Trace.cons _ _ _ _ (Step.poll _ _ _) ?_
      refine Trace.cons _ _ _ _ (Step.refreshStep _ _) (Trace.nil _)
  have hcur : (endWorld (initWorld true)
      [(Ev.evResume c4resumeResp, c4w1)]).ui.currentJobId = some "job1" := by
    decide
  exact ⟨htr, hcur,
    (c4_terminal_is_final none true "job1"
      [(Ev.evResume c4resumeResp, c4w1)] [(Ev.evRefresh (.error "net2"), c4w3)]
      c4pollResp (.error "net") c4w2 htr hcur (by decide)
      ⟨rfl, rfl⟩).1⟩

end NLNodes
